import Mathlib

set_option maxHeartbeats 4000000

/-! Verification development for the viona virtio-net data plane
    (usr/src/uts/i86pc/io/viona/viona.c).  The virtqueue state, the
    descriptor parser vq_popchain, the used-ring push operations, the
    RX copy paths, the TX path with its reclamation descriptors, and
    the notify/kick plane are embedded as executable Lean functions;
    guest memory translation and other external collaborators
    (vmm_drv_gpa2kva, MAC block allocation, the nethook callouts) are
    supplied as environment parameters. -/

/-! Wire constants from viona.c. -/

def VRING_DESC_F_NEXT : Nat := 1
def VRING_DESC_F_WRITE : Nat := 2
def VRING_DESC_F_INDIRECT : Nat := 4

def VIRTIO_NET_HDR_F_NEEDS_CSUM : Nat := 1
def VIRTIO_NET_HDR_F_DATA_VALID : Nat := 2
def VIRTIO_NET_HDR_GSO_NONE : Nat := 0
def VIRTIO_NET_HDR_GSO_TCPV4 : Nat := 1

def VRING_AVAIL_F_NO_INTERRUPT : Nat := 1

def VIRTIO_NET_F_CSUM : Nat := 1
def VIRTIO_NET_F_GUEST_CSUM : Nat := 2
def VIRTIO_NET_F_GUEST_TSO4 : Nat := 128
def VIRTIO_NET_F_HOST_TSO4 : Nat := 2048
def VIRTIO_NET_F_MRG_RXBUF : Nat := 32768

def VTNET_MAXSEGS : Nat := 32
def MIN_BUF_SIZE : Nat := 60
def VLAN_TAGSZ : Nat := 4
def NEED_VLAN_PAD_SIZE : Nat := MIN_BUF_SIZE - VLAN_TAGSZ

/-- VIONA_MAX_HDRS_LEN = sizeof (ether_vlan_header) + IP_MAX_HDR_LENGTH +
TCP_MAX_HDR_LENGTH = 18 + 60 + 60. -/
def VIONA_MAX_HDRS_LEN : Nat := 138

/-- sizeof (struct virtio_net_hdr). -/
def VNET_HDR_SZ : Nat := 10
/-- sizeof (struct virtio_net_mrgrxhdr). -/
def VNET_MRGHDR_SZ : Nat := 12

/-! errno values (illumos). -/
def EINTR : Nat := 4
def ENOMEM : Nat := 12
def EBUSY : Nat := 16
def EINVAL : Nat := 22
def ENOSPC : Nat := 28
def EOVERFLOW : Nat := 79
def EMSGSIZE : Nat := 97

/-! Checksum / offload flag bits (sys/pattr.h, external interface; only
their distinctness matters to the embedded code). -/
def HCK_FULLCKSUM_OK : Nat := 8
def HW_LSO : Nat := 16

/-! MAC checksum capability bits (external interface). -/
def HCKSUM_INET_PARTIAL : Nat := 1
def HCKSUM_INET_FULL_V4 : Nat := 2
def HCKSUM_INET_FULL_V6 : Nat := 4

/-! Ethernet / IP protocol constants. -/
def ETHERTYPE_IP : Nat := 0x800
def ETHERTYPE_IPV6 : Nat := 0x86dd
def ETHERTYPE_VLAN : Nat := 0x8100
def IPPROTO_TCP : Nat := 6
def IPPROTO_UDP : Nat := 17
def IPPROTO_NONE : Nat := 59

/-- struct virtio_desc: a 16-byte guest descriptor-table entry
(u64 vd_addr, u32 vd_len, u16 vd_flags, u16 vd_next). -/
structure VirtioDesc where
  vd_addr : Nat
  vd_len : Nat
  vd_flags : Nat
  vd_next : Nat
deriving DecidableEq, Repr

/-- struct virtio_used: a used-ring entry (u32 vu_idx, u32 vu_tlen). -/
structure VirtioUsed where
  vu_idx : Nat
  vu_tlen : Nat
deriving DecidableEq, Repr

/-- struct iovec as filled by vq_popchain: host-virtual base and length. -/
structure IoVec where
  iov_base : Nat
  iov_len : Nat
deriving DecidableEq, Repr, Inhabited

/-- used_elem_t from viona.c (u16 id, u32 len). -/
structure UsedElem where
  id : Nat
  len : Nat
deriving DecidableEq, Repr, Inhabited

/-- The per-ring statistic counters touched by the embedded code
(struct viona_ring_stats). -/
inductive RingStat where
  | ndesc_too_high
  | bad_idx
  | indir_bad_len
  | indir_bad_nest
  | indir_bad_next
  | no_space
  | too_many_desc
  | desc_bad_len
  | bad_ring_addr
  | fail_hcksum
  | fail_hcksum6
  | fail_hcksum_proto
  | bad_rx_frame
  | rx_merge_overrun
  | rx_merge_underrun
  | rx_pad_short
  | too_short
  | tx_absent
deriving DecidableEq, Repr

/-- Statistic counters as a total map. -/
def Stats : Type := RingStat → Nat

/-- VIONA_RING_STAT_INCR. -/
def incrStat (s : Stats) (k : RingStat) : Stats :=
  fun j => if j = k then s j + 1 else s j

/-- The statistics recorded by vq_popchain failure paths (the typed
parser errors of the spec; ndesc_too_high is informational only). -/
def RingStat.isParserErr : RingStat → Bool
  | .bad_idx => true
  | .desc_bad_len => true
  | .bad_ring_addr => true
  | .indir_bad_len => true
  | .indir_bad_nest => true
  | .indir_bad_next => true
  | .too_many_desc => true
  | _ => false

/-- Environment: the guest-memory lease primitives.  translate models
vmm_drv_gpa2kva (viona_gpa2kva): it yields a host pointer only when the
range is mapped.  readDesc models the volatile read (defensive copy) of
one 16-byte descriptor at index i of an indirect table whose host
mapping starts at the given pointer. -/
structure GuestMem where
  translate : Nat → Nat → Option Nat
  readDesc : Nat → Nat → VirtioDesc

/-- The per-ring state touched by the data-plane functions
(viona_vring_t together with the guest-shared ring memory it points
at).  cur_aidx and the shared 16-bit indices are kept as Nat values;
stores that the C truncates to uint16_t are taken mod 2^16. -/
structure VRing where
  vr_size : Nat
  vr_mask : Nat
  vr_cur_aidx : Nat
  avail_idx : Nat
  avail_flags : Nat
  avail_ring : Nat → Nat
  descr : Nat → VirtioDesc
  used_idx : Nat
  used_flags : Nat
  used_ring : Nat → VirtioUsed
  stats : Stats

/-- Result of vq_popchain: 0 (ring empty), n segments with the chain
head cookie, or -1 (typed failure). -/
inductive PopRes where
  | empty
  | ok (iov : List IoVec) (cookie : Nat)
  | fail
deriving Repr, DecidableEq

structure PopOut where
  res : PopRes
  ring : VRing

/-- The int return value of vq_popchain. -/
def PopOut.result (o : PopOut) : Int :=
  match o.res with
  | .empty => 0
  | .ok iov _ => iov.length
  | .fail => -1

/-- Outcome of the inner (indirect-table) descriptor walk in
vq_popchain: chain finished, typed bail, or segment overflow (the
goto loopy path). -/
inductive InnerRes where
  | done (iov : List IoVec) (i : Nat)
  | bail (k : RingStat)
  | loopy
deriving Repr

/-- The private-cursor walk of a translated indirect descriptor table
in vq_popchain (viona.c lines 2027-2083).  vindir is the host pointer
of the table, nindir its entry count, i the current segment count.
fuel equals niov - i at every call (niov at the root), so it bounds the
loop exactly as the i < niov guards do and its zero arm is unreachable
while they hold. -/
def popIndirLoop (env : GuestMem) (vindir nindir niov : Nat) :
    Nat → Nat → Nat → List IoVec → InnerRes
  | 0, _, _, _ => .loopy
  | fuel + 1, i, next, iov =>
    if (env.readDesc vindir next).vd_flags &&& VRING_DESC_F_INDIRECT ≠ 0 then
      .bail .indir_bad_nest
    else if (env.readDesc vindir next).vd_len = 0 then
      .bail .desc_bad_len
    else
      match env.translate (env.readDesc vindir next).vd_addr
          (env.readDesc vindir next).vd_len with
      | none => .bail .bad_ring_addr
      | some buf =>
        if (env.readDesc vindir next).vd_flags &&& VRING_DESC_F_NEXT = 0 then
          .done (iov ++ [⟨buf, (env.readDesc vindir next).vd_len⟩]) (i + 1)
        else if i + 1 ≥ niov then
          .loopy
        else if (env.readDesc vindir next).vd_next ≥ nindir then
          .bail .indir_bad_next
        else
          popIndirLoop env vindir nindir niov fuel (i + 1)
            (env.readDesc vindir next).vd_next
            (iov ++ [⟨buf, (env.readDesc vindir next).vd_len⟩])

/-- Outcome of the outer chain walk of vq_popchain. -/
inductive OuterRes where
  | ok (iov : List IoVec)
  | bail (k : RingStat)
  | loopy
deriving Repr

/-- The descriptor-chain walk of vq_popchain (viona.c lines 1984-2091):
the for loop over chain entries, entered only while i < niov.  fuel
equals niov - i at every call (niov at the root); the indirect walk
consumes at least one segment, so passing the decremented fuel to the
continuation preserves the invariant and the zero arm stays
unreachable while the i < niov guards hold. -/
def popChainLoop (env : GuestMem) (ring : VRing) (niov : Nat) :
    Nat → Nat → Nat → List IoVec → OuterRes
  | 0, _, _, _ => .loopy
  | fuel + 1, i, next, iov =>
    if next ≥ ring.vr_size then
      .bail .bad_idx
    else if (ring.descr next).vd_flags &&& VRING_DESC_F_INDIRECT = 0 then
      if (ring.descr next).vd_len = 0 then
        .bail .desc_bad_len
      else
        match env.translate (ring.descr next).vd_addr (ring.descr next).vd_len with
        | none => .bail .bad_ring_addr
        | some buf =>
          if (ring.descr next).vd_flags &&& VRING_DESC_F_NEXT = 0 then
            .ok (iov ++ [⟨buf, (ring.descr next).vd_len⟩])
          else if i + 1 < niov then
            popChainLoop env ring niov fuel (i + 1) (ring.descr next).vd_next
              (iov ++ [⟨buf, (ring.descr next).vd_len⟩])
          else
            .loopy
    else if (ring.descr next).vd_len &&& 0xf ≠ 0 ∨ (ring.descr next).vd_len / 16 = 0 then
      .bail .indir_bad_len
    else
      match env.translate (ring.descr next).vd_addr (ring.descr next).vd_len with
      | none => .bail .bad_ring_addr
      | some vindir =>
        match popIndirLoop env vindir ((ring.descr next).vd_len / 16) niov
            (fuel + 1) i 0 iov with
        | .bail k => .bail k
        | .loopy => .loopy
        | .done iov2 i2 =>
          if (ring.descr next).vd_flags &&& VRING_DESC_F_NEXT = 0 then
            .ok iov2
          else if i2 < niov then
            popChainLoop env ring niov fuel i2 (ring.descr next).vd_next iov2
          else
            .loopy

/-- Unsigned 16-bit subtraction, as in (uint16_t)((unsigned)a - (unsigned)b). -/
def sub16 (a b : Nat) : Nat :=
  (a % 65536 + 65536 - b % 65536) % 65536

/-- vq_popchain (viona.c lines 1950-2099): read avail_idx, bail out
empty when it matches cur_aidx, note an impossible distance, then walk
the chain rooted at avail_ring entry cur_aidx & mask.  cur_aidx is
advanced only on the successful return. -/
def vq_popchain (env : GuestMem) (ring : VRing) (niov : Nat) : PopOut :=
  let idx := ring.vr_cur_aidx
  let ndesc := sub16 ring.avail_idx idx
  if ndesc = 0 then
    ⟨.empty, ring⟩
  else
    let ring1 : VRing :=
      if ndesc > ring.vr_size then
        { ring with stats := incrStat ring.stats .ndesc_too_high }
      else ring
    let head := ring1.avail_ring (idx &&& ring1.vr_mask)
    match popChainLoop env ring1 niov niov 0 head [] with
    | .ok iov =>
      ⟨.ok iov head, { ring1 with vr_cur_aidx := (idx + 1) % 65536 }⟩
    | .bail k =>
      ⟨.fail, { ring1 with stats := incrStat ring1.stats k }⟩
    | .loopy =>
      ⟨.fail, { ring1 with stats := incrStat ring1.stats .too_many_desc }⟩

/-- One store of a used-ring entry at a masked slot. -/
def writeUsed (r : Nat → VirtioUsed) (pos : Nat) (e : VirtioUsed) :
    Nat → VirtioUsed :=
  fun j => if j = pos then e else r j

/-- vq_pushchain (viona.c lines 2101-2117): write one used entry at
used_idx & mask, then publish used_idx + 1 (stored back through a
uint16_t pointer, hence mod 2^16). -/
def vq_pushchain (ring : VRing) (len cookie : Nat) : VRing :=
  let uidx := ring.used_idx
  { ring with
    used_ring := writeUsed ring.used_ring (uidx &&& ring.vr_mask) ⟨cookie, len⟩
    used_idx := (uidx + 1) % 65536 }

/-- vq_pushchain_mrgrx (viona.c lines 2119-2144): write num_bufs
consecutive used entries starting at used_idx & mask, then publish
used_idx + num_bufs. -/
def vq_pushchain_mrgrx (ring : VRing) (num_bufs : Nat) (elem : List UsedElem) :
    VRing :=
  let uidx := ring.used_idx
  if num_bufs = 1 then
    { ring with
      used_ring := writeUsed ring.used_ring (uidx &&& ring.vr_mask)
        ⟨(elem.headI).id, (elem.headI).len⟩
      used_idx := (uidx + 1) % 65536 }
  else
    let ur := (List.range num_bufs).foldl
      (fun r i =>
        let e := elem.getD i ⟨0, 0⟩
        writeUsed r ((uidx + i) &&& ring.vr_mask) ⟨e.id, e.len⟩)
      ring.used_ring
    { ring with
      used_ring := ur
      used_idx := (uidx + num_bufs) % 65536 }

/-- A segment is well-formed when it has non-zero length and its base
was produced by a successful lease translation of that length. -/
def segOK (env : GuestMem) (s : IoVec) : Prop :=
  0 < s.iov_len ∧ ∃ a, env.translate a s.iov_len = some s.iov_base

theorem popIndirLoop_done_spec (env : GuestMem) (vindir nindir niov : Nat) :
    ∀ fuel i next iov iov2 i2,
      popIndirLoop env vindir nindir niov fuel i next iov = .done iov2 i2 →
      ∃ tl, iov2 = iov ++ tl ∧ tl ≠ [] ∧ (∀ s ∈ tl, segOK env s) ∧
        i2 = i + tl.length ∧ (i < niov → i2 ≤ niov) := by
  intro fuel
  induction fuel with
  | zero =>
    intro i next iov iov2 i2 h
    simp [popIndirLoop] at h
  | succ m ih =>
    intro i next iov iov2 i2 h
    rw [popIndirLoop] at h
    split at h
    · simp at h
    · split at h
      · simp at h
      · rename_i hlen
        split at h
        · simp at h
        · rename_i buf heq
          split at h
          · simp only [InnerRes.done.injEq] at h
            refine ⟨[⟨buf, (env.readDesc vindir next).vd_len⟩], h.1.symm, by simp,
              ?_, by simp [← h.2], by omega⟩
            intro s hs
            simp at hs
            subst hs
            exact ⟨Nat.pos_of_ne_zero hlen, ⟨(env.readDesc vindir next).vd_addr, heq⟩⟩
          · split at h
            · simp at h
            · rename_i hge
              split at h
              · simp at h
              · obtain ⟨tl, htl, hne, hok, hi2, hbnd⟩ := ih (i + 1) _ _ _ _ h
                refine ⟨⟨buf, (env.readDesc vindir next).vd_len⟩ :: tl,
                  by simpa using htl, by simp, ?_, by simp [hi2]; omega, ?_⟩
                · intro s hs
                  rcases List.mem_cons.mp hs with hs | hs
                  · subst hs
                    exact ⟨Nat.pos_of_ne_zero hlen,
                      ⟨(env.readDesc vindir next).vd_addr, heq⟩⟩
                  · exact hok s hs
                · intro _
                  exact hbnd (by omega)

theorem popIndirLoop_bail_spec (env : GuestMem) (vindir nindir niov : Nat) :
    ∀ fuel i next iov k,
      popIndirLoop env vindir nindir niov fuel i next iov = .bail k →
      k.isParserErr = true := by
  intro fuel
  induction fuel with
  | zero =>
    intro i next iov k h
    simp [popIndirLoop] at h
  | succ m ih =>
    intro i next iov k h
    rw [popIndirLoop] at h
    split at h
    · simp only [InnerRes.bail.injEq] at h
      subst h; rfl
    · split at h
      · simp only [InnerRes.bail.injEq] at h
        subst h; rfl
      · split at h
        · simp only [InnerRes.bail.injEq] at h
          subst h; rfl
        · split at h
          · simp at h
          · split at h
            · simp at h
            · rename_i hge
              split at h
              · simp only [InnerRes.bail.injEq] at h
                subst h; rfl
              · exact ih (i + 1) _ _ _ h

theorem popChainLoop_ok_spec (env : GuestMem) (ring : VRing) (niov : Nat) :
    ∀ fuel i next iov iov2,
      popChainLoop env ring niov fuel i next iov = .ok iov2 →
      ∃ tl, iov2 = iov ++ tl ∧ tl ≠ [] ∧ (∀ s ∈ tl, segOK env s) ∧
        (i < niov → i + tl.length ≤ niov) := by
  intro fuel
  induction fuel with
  | zero =>
    intro i next iov iov2 h
    simp [popChainLoop] at h
  | succ m ih =>
    intro i next iov iov2 h
    rw [popChainLoop] at h
    split at h
    · simp at h
    · split at h
      · split at h
        · simp at h
        · rename_i hlen
          split at h
          · simp at h
          · rename_i buf heq
            split at h
            · simp only [OuterRes.ok.injEq] at h
              refine ⟨[⟨buf, (ring.descr next).vd_len⟩], h.symm, by simp, ?_, by simp; omega⟩
              intro s hs
              simp at hs
              subst hs
              exact ⟨Nat.pos_of_ne_zero hlen, ⟨(ring.descr next).vd_addr, heq⟩⟩
            · split at h
              · rename_i hlt
                obtain ⟨tl, htl, hne, hok, hbnd⟩ := ih (i + 1) _ _ _ h
                refine ⟨⟨buf, (ring.descr next).vd_len⟩ :: tl, by simpa using htl,
                  by simp, ?_, ?_⟩
                · intro s hs
                  rcases List.mem_cons.mp hs with hs | hs
                  · subst hs
                    exact ⟨Nat.pos_of_ne_zero hlen, ⟨(ring.descr next).vd_addr, heq⟩⟩
                  · exact hok s hs
                · intro _
                  have := hbnd hlt
                  simp only [List.length_cons]
                  omega
              · simp at h
      · split at h
        · simp at h
        · split at h
          · simp at h
          · rename_i vin heq2
            split at h
            · simp at h
            · simp at h
            · rename_i iov3 i3 hinner
              split at h
              · simp only [OuterRes.ok.injEq] at h
                subst h
                obtain ⟨tl, htl, hne, hok, hi3, hbnd⟩ :=
                  popIndirLoop_done_spec env vin _ niov _ i 0 iov iov3 i3 hinner
                exact ⟨tl, htl, hne, hok, fun hlt => by have := hbnd hlt; omega⟩
              · split at h
                · rename_i hlt
                  obtain ⟨tl, htl, hne, hok, hi3, hbnd⟩ :=
                    popIndirLoop_done_spec env vin _ niov _ i 0 iov iov3 i3 hinner
                  have hlen1 : 0 < tl.length := List.length_pos.mpr hne
                  obtain ⟨tl2, htl2, hne2, hok2, hbnd2⟩ := ih i3 _ _ _ h
                  refine ⟨tl ++ tl2, by simp [htl2, htl], by simp [hne], ?_, ?_⟩
                  · intro s hs
                    rcases List.mem_append.mp hs with hs | hs
                    · exact hok s hs
                    · exact hok2 s hs
                  · intro _
                    have := hbnd2 hlt
                    simp only [List.length_append]
                    omega
                · simp at h

theorem popChainLoop_bail_spec (env : GuestMem) (ring : VRing) (niov : Nat) :
    ∀ fuel i next iov k,
      popChainLoop env ring niov fuel i next iov = .bail k →
      k.isParserErr = true := by
  intro fuel
  induction fuel with
  | zero =>
    intro i next iov k h
    simp [popChainLoop] at h
  | succ m ih =>
    intro i next iov k h
    rw [popChainLoop] at h
    split at h
    · simp only [OuterRes.bail.injEq] at h
      subst h; rfl
    · split at h
      · split at h
        · simp only [OuterRes.bail.injEq] at h
          subst h; rfl
        · split at h
          · simp only [OuterRes.bail.injEq] at h
            subst h; rfl
          · split at h
            · simp at h
            · split at h
              · exact ih (i + 1) _ _ _ h
              · simp at h
      · split at h
        · simp only [OuterRes.bail.injEq] at h
          subst h; rfl
        · split at h
          · simp only [OuterRes.bail.injEq] at h
            subst h; rfl
          · rename_i vin heq2
            split at h
            · rename_i kk hinner
              simp only [OuterRes.bail.injEq] at h
              subst h
              exact popIndirLoop_bail_spec env vin _ niov _ i 0 iov _ hinner
            · simp at h
            · rename_i iov3 i3 hinner
              split at h
              · simp at h
              · split at h
                · exact ih i3 _ _ _ h
                · simp at h

theorem isParserErr_ne_ndesc (k : RingStat) (hk : k.isParserErr = true) :
    k ≠ RingStat.ndesc_too_high := by
  cases k <;> simp_all [RingStat.isParserErr]

theorem incrStat_same (s : Stats) (k : RingStat) :
    incrStat s k k = s k + 1 := by
  simp [incrStat]

theorem incrStat_other (s : Stats) (k j : RingStat) (h : j ≠ k) :
    incrStat s k j = s j := by
  simp [incrStat, h]

theorem vq_popchain_empty (env : GuestMem) (ring : VRing) (niov : Nat)
    (hnd : sub16 ring.avail_idx ring.vr_cur_aidx = 0) :
    vq_popchain env ring niov = ⟨.empty, ring⟩ := by
  simp [vq_popchain, hnd]

theorem vq_popchain_go (env : GuestMem) (ring : VRing) (niov : Nat)
    (hnd : sub16 ring.avail_idx ring.vr_cur_aidx ≠ 0) (r1 : VRing)
    (hr1 : r1 = (if sub16 ring.avail_idx ring.vr_cur_aidx > ring.vr_size then
      { ring with stats := incrStat ring.stats .ndesc_too_high } else ring)) :
    vq_popchain env ring niov =
      (match popChainLoop env r1 niov niov 0
          (r1.avail_ring (ring.vr_cur_aidx &&& r1.vr_mask)) [] with
        | .ok iov =>
          ⟨.ok iov (r1.avail_ring (ring.vr_cur_aidx &&& r1.vr_mask)),
            { r1 with vr_cur_aidx := (ring.vr_cur_aidx + 1) % 65536 }⟩
        | .bail k => ⟨.fail, { r1 with stats := incrStat r1.stats k }⟩
        | .loopy =>
          ⟨.fail, { r1 with stats := incrStat r1.stats .too_many_desc }⟩) := by
  subst hr1
  simp only [vq_popchain, hnd, if_neg hnd, ite_false, if_false]

/-- Fields of the informational-statistic bump that C1 reasoning needs:
it never touches the consumer index, ring geometry, or error stats. -/
theorem ring1_facts (ring : VRing) (r1 : VRing)
    (hr1 : r1 = (if sub16 ring.avail_idx ring.vr_cur_aidx > ring.vr_size then
      { ring with stats := incrStat ring.stats .ndesc_too_high } else ring)) :
    r1.vr_cur_aidx = ring.vr_cur_aidx ∧ r1.vr_mask = ring.vr_mask ∧
    r1.avail_ring = ring.avail_ring ∧
    ∀ k : RingStat, k ≠ .ndesc_too_high → r1.stats k = ring.stats k := by
  subst hr1
  split
  · exact ⟨rfl, rfl, rfl, fun k hk => incrStat_other _ _ _ hk⟩
  · exact ⟨rfl, rfl, rfl, fun k _ => rfl⟩

/-- C1: For every ring and guest descriptor table, a vq_popchain call with
niov > 0 returns 0 exactly when avail_idx equals cur_aidx (as 16-bit
values), or a segment count n with 1 <= n <= niov where every returned
segment came from a successful non-zero-length lease translation, or -1
with a typed per-ring statistic incremented; cur_aidx advances (by one,
mod 2^16) only on the successful return and is unchanged on the 0 and
-1 returns. -/
theorem C1_vq_popchain_parser_safety (env : GuestMem) (ring : VRing)
    (niov : Nat) (hniov : 0 < niov) :
    ((vq_popchain env ring niov).result = 0 ∨
     (vq_popchain env ring niov).result = -1 ∨
     (1 ≤ (vq_popchain env ring niov).result ∧
      (vq_popchain env ring niov).result ≤ (niov : Int))) ∧
    ((vq_popchain env ring niov).result = 0 →
      (vq_popchain env ring niov).ring.vr_cur_aidx = ring.vr_cur_aidx ∧
      sub16 ring.avail_idx ring.vr_cur_aidx = 0) ∧
    (∀ iov cookie, (vq_popchain env ring niov).res = .ok iov cookie →
      1 ≤ iov.length ∧ iov.length ≤ niov ∧
      (vq_popchain env ring niov).ring.vr_cur_aidx =
        (ring.vr_cur_aidx + 1) % 65536 ∧
      ∀ s ∈ iov, segOK env s) ∧
    ((vq_popchain env ring niov).result = -1 →
      (vq_popchain env ring niov).ring.vr_cur_aidx = ring.vr_cur_aidx ∧
      ∃ k, k.isParserErr = true ∧
        (vq_popchain env ring niov).ring.stats k = ring.stats k + 1) := by
  by_cases hnd : sub16 ring.avail_idx ring.vr_cur_aidx = 0
  · rw [vq_popchain_empty env ring niov hnd]
    refine ⟨?_, ?_, ?_, ?_⟩ <;> simp [PopOut.result, hnd]
  · have hchar := vq_popchain_go env ring niov hnd _ rfl
    obtain ⟨hcur, hmask, havail, hstat⟩ := ring1_facts ring _ rfl
    rcases hloop : popChainLoop env
        (if sub16 ring.avail_idx ring.vr_cur_aidx > ring.vr_size then
          { ring with stats := incrStat ring.stats .ndesc_too_high } else ring)
        niov niov 0
        ((if sub16 ring.avail_idx ring.vr_cur_aidx > ring.vr_size then
          { ring with stats := incrStat ring.stats .ndesc_too_high } else ring).avail_ring
          (ring.vr_cur_aidx &&&
            (if sub16 ring.avail_idx ring.vr_cur_aidx > ring.vr_size then
              { ring with stats := incrStat ring.stats .ndesc_too_high } else ring).vr_mask))
        [] with iov2 | k | _ <;> simp only [hloop] at hchar <;> rw [hchar]
    · obtain ⟨tl, htl, hne, hok, hbnd⟩ := popChainLoop_ok_spec _ _ _ _ _ _ _ _ hloop
      have hlen1 : 0 < tl.length := List.length_pos.mpr hne
      simp only [List.nil_append] at htl
      subst htl
      have hbd := hbnd hniov
      refine ⟨?_, ?_, ?_, ?_⟩
      · right; right
        simp only [PopOut.result]
        constructor
        · exact_mod_cast hlen1
        · exact_mod_cast (by omega : iov2.length ≤ niov)
      · intro hres
        simp only [PopOut.result] at hres
        exact absurd hres (by exact_mod_cast Nat.pos_iff_ne_zero.mp hlen1)
      · intro iov cookie hres
        simp only [PopRes.ok.injEq] at hres
        obtain ⟨rfl, rfl⟩ := hres
        exact ⟨hlen1, by omega, rfl, hok⟩
      · intro hres
        simp [PopOut.result] at hres
    · have hk := popChainLoop_bail_spec _ _ _ _ _ _ _ _ hloop
      have hkne := isParserErr_ne_ndesc k hk
      refine ⟨?_, ?_, ?_, ?_⟩
      · right; left; rfl
      · intro hres
        simp [PopOut.result] at hres
      · intro iov cookie hres
        simp at hres
      · intro _
        exact ⟨hcur, k, hk, by simp [incrStat, hstat k hkne]⟩
    · refine ⟨?_, ?_, ?_, ?_⟩
      · right; left; rfl
      · intro hres
        simp [PopOut.result] at hres
      · intro iov cookie hres
        simp at hres
      · intro _
        exact ⟨hcur, .too_many_desc, rfl,
          by simp [incrStat, hstat RingStat.too_many_desc (by simp)]⟩

/-! Concrete instances used by the hypothesis-bearing claim theorems. -/

def wEnv : GuestMem :=
  ⟨fun gpa len => if len > 0 then some (gpa + 100000) else none,
   fun _ _ => ⟨0, 0, 0, 0⟩⟩

def wRing : VRing where
  vr_size := 4
  vr_mask := 3
  vr_cur_aidx := 0
  avail_idx := 1
  avail_flags := 0
  avail_ring := fun i => if i = 0 then 2 else 0
  descr := fun i => if i = 2 then ⟨500, 64, 0, 0⟩ else ⟨0, 0, 0, 0⟩
  used_idx := 0
  used_flags := 0
  used_ring := fun _ => ⟨0, 0⟩
  stats := fun _ => 0

/-- C1 witness: the parser safety statement instantiated on a concrete
ring holding one direct single-descriptor chain. -/
theorem C1_vq_popchain_parser_safety_witness :
    0 < 32 ∧
    (((vq_popchain wEnv wRing 32).result = 0 ∨
      (vq_popchain wEnv wRing 32).result = -1 ∨
      (1 ≤ (vq_popchain wEnv wRing 32).result ∧
       (vq_popchain wEnv wRing 32).result ≤ (32 : Int))) ∧
     ((vq_popchain wEnv wRing 32).result = 0 →
       (vq_popchain wEnv wRing 32).ring.vr_cur_aidx = wRing.vr_cur_aidx ∧
       sub16 wRing.avail_idx wRing.vr_cur_aidx = 0) ∧
     (∀ iov cookie, (vq_popchain wEnv wRing 32).res = .ok iov cookie →
       1 ≤ iov.length ∧ iov.length ≤ 32 ∧
       (vq_popchain wEnv wRing 32).ring.vr_cur_aidx =
         (wRing.vr_cur_aidx + 1) % 65536 ∧
       ∀ s ∈ iov, segOK wEnv s) ∧
     ((vq_popchain wEnv wRing 32).result = -1 →
       (vq_popchain wEnv wRing 32).ring.vr_cur_aidx = wRing.vr_cur_aidx ∧
       ∃ k, k.isParserErr = true ∧
         (vq_popchain wEnv wRing 32).ring.stats k = wRing.stats k + 1)) :=
  ⟨by decide, C1_vq_popchain_parser_safety wEnv wRing 32 (by decide)⟩

theorem vq_popchain_ok_aidx (env : GuestMem) (ring : VRing) (niov : Nat)
    (iov : List IoVec) (cookie : Nat)
    (h : (vq_popchain env ring niov).res = .ok iov cookie) :
    (vq_popchain env ring niov).ring.vr_cur_aidx =
      (ring.vr_cur_aidx + 1) % 65536 := by
  by_cases hnd : sub16 ring.avail_idx ring.vr_cur_aidx = 0
  · rw [vq_popchain_empty env ring niov hnd] at h
    simp at h
  · have hchar := vq_popchain_go env ring niov hnd _ rfl
    rcases hloop : popChainLoop env
        (if sub16 ring.avail_idx ring.vr_cur_aidx > ring.vr_size then
          { ring with stats := incrStat ring.stats .ndesc_too_high } else ring)
        niov niov 0
        ((if sub16 ring.avail_idx ring.vr_cur_aidx > ring.vr_size then
          { ring with stats := incrStat ring.stats .ndesc_too_high } else ring).avail_ring
          (ring.vr_cur_aidx &&&
            (if sub16 ring.avail_idx ring.vr_cur_aidx > ring.vr_size then
              { ring with stats := incrStat ring.stats .ndesc_too_high } else ring).vr_mask))
        [] with iov2 | k | _ <;> simp only [hloop] at hchar
    · exact (congrArg (fun o => o.ring.vr_cur_aidx) hchar).trans rfl
    · rw [hchar] at h
      simp at h
    · rw [hchar] at h
      simp at h

theorem vq_popchain_nok_aidx (env : GuestMem) (ring : VRing) (niov : Nat)
    (h : (vq_popchain env ring niov).result ≤ 0) :
    (vq_popchain env ring niov).ring.vr_cur_aidx = ring.vr_cur_aidx := by
  by_cases hnd : sub16 ring.avail_idx ring.vr_cur_aidx = 0
  · rw [vq_popchain_empty env ring niov hnd]
  · have hchar := vq_popchain_go env ring niov hnd _ rfl
    obtain ⟨hcur, hmask, havail, hstat⟩ := ring1_facts ring _ rfl
    rcases hloop : popChainLoop env
        (if sub16 ring.avail_idx ring.vr_cur_aidx > ring.vr_size then
          { ring with stats := incrStat ring.stats .ndesc_too_high } else ring)
        niov niov 0
        ((if sub16 ring.avail_idx ring.vr_cur_aidx > ring.vr_size then
          { ring with stats := incrStat ring.stats .ndesc_too_high } else ring).avail_ring
          (ring.vr_cur_aidx &&&
            (if sub16 ring.avail_idx ring.vr_cur_aidx > ring.vr_size then
              { ring with stats := incrStat ring.stats .ndesc_too_high } else ring).vr_mask))
        [] with iov2 | k | _ <;> simp only [hloop] at hchar
    · obtain ⟨tl, htl, hne, _, _⟩ := popChainLoop_ok_spec _ _ _ _ _ _ _ _ hloop
      have hlen1 : 0 < tl.length := List.length_pos.mpr hne
      simp only [List.nil_append] at htl
      subst htl
      rw [hchar] at h
      simp only [PopOut.result] at h
      exfalso
      omega
    · exact (congrArg (fun o => o.ring.vr_cur_aidx) hchar).trans hcur
    · exact (congrArg (fun o => o.ring.vr_cur_aidx) hchar).trans hcur

/-- Writes of distinct slots through writeUsed commute with lookup. -/
theorem foldl_writeUsed_get (ur : Nat → VirtioUsed) (pos : Nat → Nat)
    (f : Nat → VirtioUsed) :
    ∀ k, (∀ i, i < k → ∀ j, j < k → pos i = pos j → i = j) →
    ∀ i, i < k →
    ((List.range k).foldl (fun r j => writeUsed r (pos j) (f j)) ur) (pos i)
      = f i := by
  intro k
  induction k with
  | zero => intro _ i hi; omega
  | succ m ih =>
    intro hinj i hi
    rw [List.range_succ, List.foldl_append]
    simp only [List.foldl_cons, List.foldl_nil]
    by_cases him : i = m
    · subst him
      simp [writeUsed]
    · have hlt : i < m := by omega
      have hne : pos i ≠ pos m := by
        intro hcon
        exact him (hinj i (by omega) m (by omega) hcon)
      simp only [writeUsed, if_neg hne]
      exact ih (fun a ha b hb hab => hinj a (by omega) b (by omega) hab) i hlt

/-- C2: a successful vq_popchain advances cur_aidx by exactly one
(mod 2^16) with the whole chain as one consumed entry, and empty or
failed calls leave it unchanged; vq_pushchain publishes
used_idx + 1 after writing the completion entry at used_idx & mask;
vq_pushchain_mrgrx with k elements publishes used_idx + k after
writing the k entries at used_idx + i & mask (stated for rings whose
masked slots for the k entries are distinct). -/
theorem C2_index_progress (env : GuestMem) (ring : VRing) (niov : Nat)
    (len cookie k : Nat) (elems : List UsedElem)
    (hinj : ∀ i, i < k → ∀ j, j < k →
      (ring.used_idx + i) &&& ring.vr_mask = (ring.used_idx + j) &&& ring.vr_mask →
      i = j) :
    (∀ iov c, (vq_popchain env ring niov).res = .ok iov c →
      (vq_popchain env ring niov).ring.vr_cur_aidx =
        (ring.vr_cur_aidx + 1) % 65536) ∧
    ((vq_popchain env ring niov).result ≤ 0 →
      (vq_popchain env ring niov).ring.vr_cur_aidx = ring.vr_cur_aidx) ∧
    ((vq_pushchain ring len cookie).used_idx = (ring.used_idx + 1) % 65536 ∧
     (vq_pushchain ring len cookie).used_ring (ring.used_idx &&& ring.vr_mask) =
       ⟨cookie, len⟩) ∧
    ((vq_pushchain_mrgrx ring k elems).used_idx =
       (ring.used_idx + k) % 65536 ∧
     (∀ i, i < k →
       (vq_pushchain_mrgrx ring k elems).used_ring
           ((ring.used_idx + i) &&& ring.vr_mask) =
         ⟨(elems.getD i ⟨0, 0⟩).id, (elems.getD i ⟨0, 0⟩).len⟩)) := by
  refine ⟨?_, ?_, ⟨rfl, by simp [vq_pushchain, writeUsed]⟩, ?_⟩
  · intro iov c h
    exact vq_popchain_ok_aidx env ring niov iov c h
  · intro h
    exact vq_popchain_nok_aidx env ring niov h
  · by_cases h1 : k = 1
    · subst h1
      refine ⟨rfl, ?_⟩
      intro i hi
      have : i = 0 := by omega
      subst this
      simp only [vq_pushchain_mrgrx, if_pos rfl]
      simp only [Nat.add_zero]
      cases elems with
      | nil => simp [writeUsed]; exact ⟨rfl, rfl⟩
      | cons e tl => simp [writeUsed]
    · constructor
      · simp [vq_pushchain_mrgrx, h1]
      · intro i hi
        simp only [vq_pushchain_mrgrx, if_neg h1]
        exact foldl_writeUsed_get ring.used_ring
          (fun j => (ring.used_idx + j) &&& ring.vr_mask)
          (fun j => ⟨(elems.getD j ⟨0, 0⟩).id, (elems.getD j ⟨0, 0⟩).len⟩)
          k hinj i hi

/-- C2 witness: instantiated on the concrete ring (size 4, used_idx 0),
where the masked used slots of two pushed elements are distinct. -/
theorem C2_index_progress_witness :
    (∀ i, i < 2 → ∀ j, j < 2 →
      (wRing.used_idx + i) &&& wRing.vr_mask = (wRing.used_idx + j) &&& wRing.vr_mask →
      i = j) ∧
    ((∀ iov c, (vq_popchain wEnv wRing 32).res = .ok iov c →
      (vq_popchain wEnv wRing 32).ring.vr_cur_aidx =
        (wRing.vr_cur_aidx + 1) % 65536) ∧
    ((vq_popchain wEnv wRing 32).result ≤ 0 →
      (vq_popchain wEnv wRing 32).ring.vr_cur_aidx = wRing.vr_cur_aidx) ∧
    ((vq_pushchain wRing 70 0).used_idx = (wRing.used_idx + 1) % 65536 ∧
     (vq_pushchain wRing 70 0).used_ring (wRing.used_idx &&& wRing.vr_mask) =
       ⟨0, 70⟩) ∧
    ((vq_pushchain_mrgrx wRing 2 [⟨0, 10⟩, ⟨1, 20⟩]).used_idx =
       (wRing.used_idx + 2) % 65536 ∧
     (∀ i, i < 2 →
       (vq_pushchain_mrgrx wRing 2 [⟨0, 10⟩, ⟨1, 20⟩]).used_ring
           ((wRing.used_idx + i) &&& wRing.vr_mask) =
         ⟨([⟨0, 10⟩, ⟨1, 20⟩].getD i (⟨0, 0⟩ : UsedElem)).id,
          ([⟨0, 10⟩, ⟨1, 20⟩].getD i (⟨0, 0⟩ : UsedElem)).len⟩))) :=
  ⟨by decide, C2_index_progress wEnv wRing 32 70 0 2 [⟨0, 10⟩, ⟨1, 20⟩] (by decide)⟩

/-- C9: pushing a single element through the merged-RX multi-push
leaves the ring in exactly the state of the single push with the
matching length and cookie. -/
theorem C9_mrgrx_single_eq_pushchain (ring : VRing) (id len : Nat) :
    vq_pushchain_mrgrx ring 1 [⟨id, len⟩] = vq_pushchain ring len id := by
  simp [vq_pushchain_mrgrx, vq_pushchain, List.headI]

/-! TX path: viona_tx (viona.c lines 2994-3255), the reclamation
descriptors (viona_desb_t) and their release callback
viona_desb_release (lines 2774-2804).  External collaborators -- the
desballoc/allocb allocators, the nethook callout, and the checksum
routine verdict -- are supplied through a TxEnv record; the reference
counting, completion pushes and descriptor-state transitions are
modeled exactly as the source performs them. -/

/-- viona_desb_t reclamation-descriptor state (d_ref, d_len, d_cookie). -/
structure Desb where
  d_ref : Nat
  d_len : Nat
  d_cookie : Nat
deriving DecidableEq, Repr, Inhabited

/-- viona_desb_release: decrement d_ref; while other references remain
(new value > 1) nothing else happens; the final release reads
(d_len, d_cookie), resets the descriptor to unused and pushes the
completion (returned here as the list of pushes performed). -/
def viona_desb_release (d : Desb) : Desb × List (Nat × Nat) :=
  if d.d_ref - 1 > 1 then
    ({ d with d_ref := d.d_ref - 1 }, [])
  else
    (⟨0, 0, 0⟩, [(d.d_len, d.d_cookie)])

/-- n successive frees of desb-referencing mblks, each invoking
viona_desb_release. -/
def releaseN : Nat → Desb → Desb × List (Nat × Nat)
  | 0, d => (d, [])
  | n + 1, d =>
    ((releaseN n (viona_desb_release d).1).1,
     (viona_desb_release d).2 ++ (releaseN n (viona_desb_release d).1).2)

/-- Environment for one viona_tx invocation: configuration and the
outcomes of the external collaborators it calls. -/
structure TxEnv where
  txdesb_present : Bool
  desb_ref0 : Nat
  headers_alloc_ok : Bool
  payload_alloc_ok : Nat → Bool
  hook_interested : Bool
  hook_drop : Bool
  hook_pullup : Bool
  csum_needed : Bool
  csum_ok : Bool

/-- Observable outcome of one viona_tx invocation.  pushes lists the
used-ring completions pushed before returning; inflight counts the
desb-referencing mblks handed to MAC (whose eventual frees drive
viona_desb_release); dp_final is the state of the claimed reclamation
descriptor at return (meaningful when dp_claimed). -/
structure TxOut where
  pushes : List (Nat × Nat)
  mac : Bool
  dp_claimed : Bool
  dp_final : Desb
  inflight : Nat
  outstanding : Nat
deriving Repr

/-- The copy-headers loop of viona_tx (lines 3073-3099): consume
segment lengths until VIONA_MAX_HDRS_LEN bytes are copied, returning
the remaining segment list and the offset consumed from its head
(base_off). -/
def txHdrCopy : Nat → List Nat → List Nat × Nat
  | _, [] => ([], 0)
  | min_copy, seg :: rest =>
    if min_copy - min min_copy seg = 0 then
      if seg = min min_copy seg then (rest, 0) else (seg :: rest, min min_copy seg)
    else
      txHdrCopy (min_copy - min min_copy seg) rest

/-- The per-segment block construction of viona_tx (lines 3104-3130):
one desballoc/allocb per remaining segment; returns how many blocks
were allocated and whether every allocation succeeded. -/
def txPayloadAlloc (ok : Nat → Bool) : List Nat → Nat → Nat × Bool
  | [], _ => (0, true)
  | _ :: rest, j =>
    if ok j then
      ((txPayloadAlloc ok rest (j + 1)).1 + 1, (txPayloadAlloc ok rest (j + 1)).2)
    else
      (0, false)

/-- The drop_fail/drop_hook tail of viona_tx when no reclamation
descriptor is held (dp == NULL): free any copied blocks and push the
total guest-supplied length.  claimed records whether the desb slot
had been claimed earlier and already reset (the hook pull-up path). -/
def txDropNone (claimed : Bool) (total cookie : Nat) (ring : VRing) :
    TxOut × VRing :=
  (⟨[(total, cookie)], false, claimed, ⟨0, 0, 0⟩, 0, 0⟩,
   vq_pushchain ring total cookie)

/-- The drop_fail/drop_hook tail of viona_tx with a claimed reclamation
descriptor: take the extra hold (drop_fail only; the hook-drop path
took it before the callout), let freemsgchain release the
desb-referencing blocks, reset the descriptor to unused and push the
total guest-supplied length. -/
def txDropSome (d : Desb) (blocks : Nat) (addRef : Bool)
    (total cookie : Nat) (ring : VRing) : TxOut × VRing :=
  (⟨(releaseN blocks (if addRef then { d with d_ref := d.d_ref + 1 } else d)).2
      ++ [(total, cookie)],
    false, true, ⟨0, 0, 0⟩, 0, 0⟩,
   vq_pushchain
     ((releaseN blocks (if addRef then { d with d_ref := d.d_ref + 1 } else d)).2.foldl
       (fun r pr => vq_pushchain r pr.1 pr.2) ring)
     total cookie)

/-- The checksum-offload gate and MAC submission of viona_tx (lines
3178-3212): a failed viona_tx_csum verdict routes to drop_fail; the
zero-copy path stores the frame length in the descriptor, bumps the
outstanding-transfer count and defers the completion; the copied path
pushes the completion immediately. -/
def viona_tx_submit (tenv : TxEnv) (cookie total : Nat) (dp : Option Desb)
    (blocks : Nat) (claimed : Bool) (ring : VRing) : TxOut × VRing :=
  if tenv.csum_needed ∧ tenv.csum_ok = false then
    match dp with
    | some d => txDropSome d blocks true total cookie ring
    | none => txDropNone claimed total cookie ring
  else
    match dp with
    | some d =>
      (⟨[], true, true, { d with d_len := total }, blocks, 1⟩, ring)
    | none =>
      (⟨[(total, cookie)], true, claimed, ⟨0, 0, 0⟩, 0, 0⟩,
       vq_pushchain ring total cookie)

/-- The nethook callout of viona_tx (lines 3132-3176): with a
reclamation descriptor an extra reference is held across the callout; a
drop frees the frame (releasing the per-block references) and lands in
drop_hook; an accepting hook that pulled the frame up releases every
desb reference, so the descriptor is reset and the frame continues as
a copied one. -/
def viona_tx_after (tenv : TxEnv) (cookie total : Nat) (dp : Option Desb)
    (blocks : Nat) (ring : VRing) : TxOut × VRing :=
  if tenv.hook_interested then
    match dp with
    | some d =>
      if tenv.hook_drop then
        txDropSome { d with d_ref := d.d_ref + 1 } blocks false total cookie ring
      else if tenv.hook_pullup then
        viona_tx_submit tenv cookie total none 0 true ring
      else
        viona_tx_submit tenv cookie total (some d) blocks false ring
    | none =>
      if tenv.hook_drop then
        txDropNone false total cookie ring
      else
        viona_tx_submit tenv cookie total none 0 false ring
  else
    viona_tx_submit tenv cookie total dp blocks false ring

/-- The frame-construction section of viona_tx (lines 3063-3130):
copy the header region out of the guest segments, then wrap or copy
the remaining payload segments one block each; an allocation failure
lands in drop_fail with the references taken so far. -/
def viona_tx_body (tenv : TxEnv) (lens : List Nat) (cookie total : Nat)
    (dp : Option Desb) (ring : VRing) : TxOut × VRing :=
  match dp with
  | some d =>
    if (txPayloadAlloc tenv.payload_alloc_ok (txHdrCopy VIONA_MAX_HDRS_LEN lens.tail).1 0).2 then
      viona_tx_after tenv cookie total
        (some { d with d_ref := d.d_ref +
          (txPayloadAlloc tenv.payload_alloc_ok (txHdrCopy VIONA_MAX_HDRS_LEN lens.tail).1 0).1 })
        (1 + (txPayloadAlloc tenv.payload_alloc_ok (txHdrCopy VIONA_MAX_HDRS_LEN lens.tail).1 0).1)
        ring
    else
      txDropSome
        { d with d_ref := d.d_ref +
          (txPayloadAlloc tenv.payload_alloc_ok (txHdrCopy VIONA_MAX_HDRS_LEN lens.tail).1 0).1 }
        (1 + (txPayloadAlloc tenv.payload_alloc_ok (txHdrCopy VIONA_MAX_HDRS_LEN lens.tail).1 0).1)
        true total cookie ring
  | none =>
    if (txPayloadAlloc tenv.payload_alloc_ok (txHdrCopy VIONA_MAX_HDRS_LEN lens.tail).1 0).2 then
      viona_tx_after tenv cookie total none 0 ring
    else
      txDropNone false total cookie ring

/-- The per-chain half of viona_tx after a successful pop (lines
3026-3061): validate the virtio-net header length, claim the
reclamation descriptor slot named by the cookie (failing back to a
copied drop when the guest reused a descriptor still in flight),
allocate the headers block, then build and submit the frame. -/
def viona_tx_chain (tenv : TxEnv) (lens : List Nat) (cookie : Nat)
    (ring : VRing) : TxOut × VRing :=
  if lens.headI < VNET_HDR_SZ then
    txDropNone false lens.sum cookie ring
  else if tenv.txdesb_present then
    if tenv.desb_ref0 ≠ 0 then
      txDropNone false lens.sum cookie ring
    else if tenv.headers_alloc_ok then
      viona_tx_body tenv lens cookie lens.sum (some ⟨2, 0, cookie⟩) ring
    else
      txDropSome ⟨1, 0, cookie⟩ 0 true lens.sum cookie ring
  else if tenv.headers_alloc_ok then
    viona_tx_body tenv lens cookie lens.sum none ring
  else
    txDropNone false lens.sum cookie ring

/-- viona_tx (lines 2994-3255): pop one chain from the available ring
(an empty pop records tx_absent; a parser failure already recorded its
statistic) and process it. -/
def viona_tx (env : GuestMem) (tenv : TxEnv) (ring0 : VRing) :
    TxOut × VRing :=
  match (vq_popchain env ring0 ring0.vr_size).res with
  | .empty =>
    (⟨[], false, false, ⟨tenv.desb_ref0, 0, 0⟩, 0, 0⟩,
     { (vq_popchain env ring0 ring0.vr_size).ring with
       stats := incrStat (vq_popchain env ring0 ring0.vr_size).ring.stats .tx_absent })
  | .fail =>
    (⟨[], false, false, ⟨tenv.desb_ref0, 0, 0⟩, 0, 0⟩,
     (vq_popchain env ring0 ring0.vr_size).ring)
  | .ok iov cookie =>
    viona_tx_chain tenv (iov.map IoVec.iov_len) cookie
      (vq_popchain env ring0 ring0.vr_size).ring

theorem releaseN_no_push : ∀ (n : Nat) (d : Desb), n + 2 ≤ d.d_ref →
    (releaseN n d).2 = [] ∧ (releaseN n d).1.d_ref = d.d_ref - n := by
  intro n
  induction n with
  | zero => intro d _; exact ⟨rfl, rfl⟩
  | succ m ih =>
    intro d hd
    have hrel : viona_desb_release d = ({ d with d_ref := d.d_ref - 1 }, []) := by
      rw [viona_desb_release, if_pos (by omega)]
    rw [releaseN, hrel]
    simp only [List.nil_append]
    have := ih { d with d_ref := d.d_ref - 1 } (by simp; omega)
    refine ⟨this.1, ?_⟩
    rw [this.2]
    simp
    omega

theorem releaseN_final : ∀ (n : Nat) (d : Desb), d.d_ref = n + 2 →
    releaseN (n + 1) d = (⟨0, 0, 0⟩, [(d.d_len, d.d_cookie)]) := by
  intro n
  induction n with
  | zero =>
    intro d hd
    have hrel : viona_desb_release d = (⟨0, 0, 0⟩, [(d.d_len, d.d_cookie)]) := by
      rw [viona_desb_release, if_neg (by omega)]
    rw [releaseN, hrel]
    rfl
  | succ m ih =>
    intro d hd
    have hrel : viona_desb_release d = ({ d with d_ref := d.d_ref - 1 }, []) := by
      rw [viona_desb_release, if_pos (by omega)]
    rw [releaseN, hrel]
    have := ih { d with d_ref := d.d_ref - 1 } (by simp; omega)
    rw [this]
    rfl

theorem txDropNone_spec (claimed : Bool) (total cookie : Nat) (ring : VRing) :
    ((txDropNone claimed total cookie ring).1.pushes ++
      (releaseN (txDropNone claimed total cookie ring).1.inflight
        (txDropNone claimed total cookie ring).1.dp_final).2
      = [(total, cookie)]) ∧
    (txDropNone claimed total cookie ring).1.mac = false ∧
    (txDropNone claimed total cookie ring).1.dp_final.d_ref = 0 ∧
    (releaseN (txDropNone claimed total cookie ring).1.inflight
      (txDropNone claimed total cookie ring).1.dp_final).1.d_ref = 0 :=
  ⟨rfl, rfl, rfl, rfl⟩

theorem txDropSome_spec (d : Desb) (blocks : Nat) (addRef : Bool)
    (total cookie : Nat) (ring : VRing)
    (h : (if addRef then d.d_ref + 1 else d.d_ref) = blocks + 2) :
    ((txDropSome d blocks addRef total cookie ring).1.pushes ++
      (releaseN (txDropSome d blocks addRef total cookie ring).1.inflight
        (txDropSome d blocks addRef total cookie ring).1.dp_final).2
      = [(total, cookie)]) ∧
    (txDropSome d blocks addRef total cookie ring).1.mac = false ∧
    (txDropSome d blocks addRef total cookie ring).1.dp_final.d_ref = 0 ∧
    (releaseN (txDropSome d blocks addRef total cookie ring).1.inflight
      (txDropSome d blocks addRef total cookie ring).1.dp_final).1.d_ref = 0 := by
  have href : blocks + 2 ≤ (if addRef then { d with d_ref := d.d_ref + 1 } else d).d_ref := by
    split <;> simp_all <;> omega
  have hempty := (releaseN_no_push blocks _ href).1
  refine ⟨?_, rfl, rfl, rfl⟩
  simp only [txDropSome, hempty]
  rfl

theorem viona_tx_submit_spec (tenv : TxEnv) (cookie total : Nat)
    (dp : Option Desb) (blocks : Nat) (claimed : Bool) (ring : VRing)
    (hdp : ∀ d, dp = some d →
      d.d_ref = blocks + 1 ∧ d.d_cookie = cookie ∧ 1 ≤ blocks) :
    ((viona_tx_submit tenv cookie total dp blocks claimed ring).1.pushes ++
      (releaseN (viona_tx_submit tenv cookie total dp blocks claimed ring).1.inflight
        (viona_tx_submit tenv cookie total dp blocks claimed ring).1.dp_final).2
      = [(total, cookie)]) ∧
    ((viona_tx_submit tenv cookie total dp blocks claimed ring).1.mac = false →
      (viona_tx_submit tenv cookie total dp blocks claimed ring).1.dp_claimed = true →
      (viona_tx_submit tenv cookie total dp blocks claimed ring).1.dp_final.d_ref = 0) ∧
    ((viona_tx_submit tenv cookie total dp blocks claimed ring).1.dp_claimed = true →
      (releaseN (viona_tx_submit tenv cookie total dp blocks claimed ring).1.inflight
        (viona_tx_submit tenv cookie total dp blocks claimed ring).1.dp_final).1.d_ref = 0) := by
  by_cases hcs : tenv.csum_needed ∧ tenv.csum_ok = false
  · cases dp with
    | some d =>
      obtain ⟨h1, h2, h3⟩ := hdp d rfl
      have hspec := txDropSome_spec d blocks true total cookie ring (by simp; omega)
      simp only [viona_tx_submit, if_pos hcs]
      exact ⟨hspec.1, fun _ _ => hspec.2.2.1, fun _ => hspec.2.2.2⟩
    | none =>
      have hspec := txDropNone_spec claimed total cookie ring
      simp only [viona_tx_submit, if_pos hcs]
      exact ⟨hspec.1, fun _ _ => hspec.2.2.1, fun _ => hspec.2.2.2⟩
  · cases dp with
    | some d =>
      obtain ⟨h1, h2, h3⟩ := hdp d rfl
      have hfin := releaseN_final (blocks - 1) { d with d_len := total }
        (by simp; omega)
      have hb : blocks - 1 + 1 = blocks := by omega
      rw [hb] at hfin
      refine ⟨?_, ?_, ?_⟩ <;> simp only [viona_tx_submit, if_neg hcs]
      · rw [hfin]
        simp [h2]
      · intro hmac _
        exact absurd hmac (by simp)
      · intro _
        rw [hfin]
    | none =>
      refine ⟨?_, ?_, ?_⟩ <;> simp only [viona_tx_submit, if_neg hcs]
      · rfl
      · intro _ _
        trivial
      · intro _
        trivial

theorem viona_tx_after_spec (tenv : TxEnv) (cookie total : Nat)
    (dp : Option Desb) (blocks : Nat) (ring : VRing)
    (hdp : ∀ d, dp = some d →
      d.d_ref = blocks + 1 ∧ d.d_cookie = cookie ∧ 1 ≤ blocks) :
    ((viona_tx_after tenv cookie total dp blocks ring).1.pushes ++
      (releaseN (viona_tx_after tenv cookie total dp blocks ring).1.inflight
        (viona_tx_after tenv cookie total dp blocks ring).1.dp_final).2
      = [(total, cookie)]) ∧
    ((viona_tx_after tenv cookie total dp blocks ring).1.mac = false →
      (viona_tx_after tenv cookie total dp blocks ring).1.dp_claimed = true →
      (viona_tx_after tenv cookie total dp blocks ring).1.dp_final.d_ref = 0) ∧
    ((viona_tx_after tenv cookie total dp blocks ring).1.dp_claimed = true →
      (releaseN (viona_tx_after tenv cookie total dp blocks ring).1.inflight
        (viona_tx_after tenv cookie total dp blocks ring).1.dp_final).1.d_ref = 0) := by
  by_cases hint : tenv.hook_interested
  · cases dp with
    | some d =>
      obtain ⟨h1, h2, h3⟩ := hdp d rfl
      by_cases hdrop : tenv.hook_drop
      · have hspec := txDropSome_spec { d with d_ref := d.d_ref + 1 } blocks false
          total cookie ring (by simp; omega)
        simp only [viona_tx_after, if_pos hint, hdrop, if_pos hdrop]
        exact ⟨hspec.1, fun _ _ => hspec.2.2.1, fun _ => hspec.2.2.2⟩
      · by_cases hpull : tenv.hook_pullup
        · have hspec := viona_tx_submit_spec tenv cookie total none 0 true ring
            (by intro d hd; cases hd)
          simp only [viona_tx_after, if_pos hint, hdrop, if_neg hdrop, hpull,
            if_pos hpull]
          exact hspec
        · have hspec := viona_tx_submit_spec tenv cookie total (some d) blocks
            false ring hdp
          simp only [viona_tx_after, if_pos hint, hdrop, if_neg hdrop, hpull,
            if_neg hpull]
          exact hspec
    | none =>
      by_cases hdrop : tenv.hook_drop
      · have hspec := txDropNone_spec false total cookie ring
        simp only [viona_tx_after, if_pos hint, hdrop, if_pos hdrop]
        exact ⟨hspec.1, fun _ _ => hspec.2.2.1, fun _ => hspec.2.2.2⟩
      · have hspec := viona_tx_submit_spec tenv cookie total none 0 false ring
          (by intro d hd; cases hd)
        simp only [viona_tx_after, if_pos hint, hdrop, if_neg hdrop]
        exact hspec
  · have hspec := viona_tx_submit_spec tenv cookie total dp blocks false ring hdp
    simp only [viona_tx_after, if_neg hint]
    exact hspec

theorem viona_tx_body_spec (tenv : TxEnv) (lens : List Nat)
    (cookie total : Nat) (dp : Option Desb) (ring : VRing)
    (hdp : ∀ d, dp = some d → d.d_ref = 2 ∧ d.d_cookie = cookie) :
    ((viona_tx_body tenv lens cookie total dp ring).1.pushes ++
      (releaseN (viona_tx_body tenv lens cookie total dp ring).1.inflight
        (viona_tx_body tenv lens cookie total dp ring).1.dp_final).2
      = [(total, cookie)]) ∧
    ((viona_tx_body tenv lens cookie total dp ring).1.mac = false →
      (viona_tx_body tenv lens cookie total dp ring).1.dp_claimed = true →
      (viona_tx_body tenv lens cookie total dp ring).1.dp_final.d_ref = 0) ∧
    ((viona_tx_body tenv lens cookie total dp ring).1.dp_claimed = true →
      (releaseN (viona_tx_body tenv lens cookie total dp ring).1.inflight
        (viona_tx_body tenv lens cookie total dp ring).1.dp_final).1.d_ref = 0) := by
  cases dp with
  | some d =>
    obtain ⟨h1, h2⟩ := hdp d rfl
    cases hpa : (txPayloadAlloc tenv.payload_alloc_ok
        (txHdrCopy VIONA_MAX_HDRS_LEN lens.tail).1 0).2 with
    | true =>
      have hspec := viona_tx_after_spec tenv cookie total
        (some { d with d_ref := d.d_ref +
          (txPayloadAlloc tenv.payload_alloc_ok
            (txHdrCopy VIONA_MAX_HDRS_LEN lens.tail).1 0).1 })
        (1 + (txPayloadAlloc tenv.payload_alloc_ok
          (txHdrCopy VIONA_MAX_HDRS_LEN lens.tail).1 0).1)
        ring
        (by
          intro d2 hd2
          simp only [Option.some.injEq] at hd2
          subst hd2
          simp
          omega)
      simp only [viona_tx_body, hpa, if_true, ite_true]
      exact hspec
    | false =>
      have hspec := txDropSome_spec
        { d with d_ref := d.d_ref +
          (txPayloadAlloc tenv.payload_alloc_ok
            (txHdrCopy VIONA_MAX_HDRS_LEN lens.tail).1 0).1 }
        (1 + (txPayloadAlloc tenv.payload_alloc_ok
          (txHdrCopy VIONA_MAX_HDRS_LEN lens.tail).1 0).1)
        true total cookie ring (by simp; omega)
      simp only [viona_tx_body, hpa, if_false, ite_false]
      exact ⟨hspec.1, fun _ _ => hspec.2.2.1, fun _ => hspec.2.2.2⟩
  | none =>
    cases hpa : (txPayloadAlloc tenv.payload_alloc_ok
        (txHdrCopy VIONA_MAX_HDRS_LEN lens.tail).1 0).2 with
    | true =>
      have hspec := viona_tx_after_spec tenv cookie total none 0 ring
        (by intro d hd; cases hd)
      simp only [viona_tx_body, hpa, if_true, ite_true]
      exact hspec
    | false =>
      have hspec := txDropNone_spec false total cookie ring
      simp only [viona_tx_body, hpa, if_false, ite_false]
      exact ⟨hspec.1, fun _ _ => hspec.2.2.1, fun _ => hspec.2.2.2⟩

theorem viona_tx_chain_spec (tenv : TxEnv) (lens : List Nat) (cookie : Nat)
    (ring : VRing) :
    ((viona_tx_chain tenv lens cookie ring).1.pushes ++
      (releaseN (viona_tx_chain tenv lens cookie ring).1.inflight
        (viona_tx_chain tenv lens cookie ring).1.dp_final).2
      = [(lens.sum, cookie)]) ∧
    ((viona_tx_chain tenv lens cookie ring).1.mac = false →
      (viona_tx_chain tenv lens cookie ring).1.dp_claimed = true →
      (viona_tx_chain tenv lens cookie ring).1.dp_final.d_ref = 0) ∧
    ((viona_tx_chain tenv lens cookie ring).1.dp_claimed = true →
      (releaseN (viona_tx_chain tenv lens cookie ring).1.inflight
        (viona_tx_chain tenv lens cookie ring).1.dp_final).1.d_ref = 0) := by
  by_cases hhdr : lens.headI < VNET_HDR_SZ
  · have hspec := txDropNone_spec false lens.sum cookie ring
    simp only [viona_tx_chain, if_pos hhdr]
    exact ⟨hspec.1, fun _ _ => hspec.2.2.1, fun _ => hspec.2.2.2⟩
  · by_cases hdesb : tenv.txdesb_present
    · by_cases href : tenv.desb_ref0 ≠ 0
      · have hspec := txDropNone_spec false lens.sum cookie ring
        simp only [viona_tx_chain, if_neg hhdr, hdesb, if_pos hdesb, if_pos href]
        exact ⟨hspec.1, fun _ _ => hspec.2.2.1, fun _ => hspec.2.2.2⟩
      · by_cases halloc : tenv.headers_alloc_ok
        · have hspec := viona_tx_body_spec tenv lens cookie lens.sum
            (some ⟨2, 0, cookie⟩) ring
            (by intro d hd; simp only [Option.some.injEq] at hd; subst hd; exact ⟨rfl, rfl⟩)
          simp only [viona_tx_chain, if_neg hhdr, hdesb, if_pos hdesb,
            if_neg href, halloc, if_pos halloc]
          exact hspec
        · have hspec := txDropSome_spec ⟨1, 0, cookie⟩ 0 true lens.sum cookie ring
            (by simp)
          simp only [viona_tx_chain, if_neg hhdr, hdesb, if_pos hdesb,
            if_neg href, halloc, if_neg halloc]
          exact ⟨hspec.1, fun _ _ => hspec.2.2.1, fun _ => hspec.2.2.2⟩
    · by_cases halloc : tenv.headers_alloc_ok
      · have hspec := viona_tx_body_spec tenv lens cookie lens.sum none ring
          (by intro d hd; cases hd)
        simp only [viona_tx_chain, if_neg hhdr, hdesb, if_neg hdesb, halloc,
          if_pos halloc]
        exact hspec
      · have hspec := txDropNone_spec false lens.sum cookie ring
        simp only [viona_tx_chain, if_neg hhdr, hdesb, if_neg hdesb, halloc,
          if_neg halloc]
        exact ⟨hspec.1, fun _ _ => hspec.2.2.1, fun _ => hspec.2.2.2⟩

/-- C3: for every TX chain successfully popped, exactly one used-ring
completion carrying the chain's cookie and the sum of all
guest-supplied segment lengths is produced, whichever path the frame
takes: immediately on the copied, drop, checksum-failure and hook-drop
paths, or by the final viona_desb_release once MAC frees the inflight
zero-copy blocks; on every dropped path the claimed reclamation
descriptor is returned to unused (d_ref 0), and draining the inflight
blocks of a submitted zero-copy frame also returns it to unused. -/
theorem C3_tx_completion_exactly_once (env : GuestMem) (tenv : TxEnv)
    (ring0 : VRing) (iov : List IoVec) (cookie : Nat)
    (hpop : (vq_popchain env ring0 ring0.vr_size).res = .ok iov cookie) :
    ((viona_tx env tenv ring0).1.pushes ++
      (releaseN (viona_tx env tenv ring0).1.inflight
        (viona_tx env tenv ring0).1.dp_final).2
      = [((iov.map IoVec.iov_len).sum, cookie)]) ∧
    ((viona_tx env tenv ring0).1.mac = false →
      (viona_tx env tenv ring0).1.dp_claimed = true →
      (viona_tx env tenv ring0).1.dp_final.d_ref = 0) ∧
    ((viona_tx env tenv ring0).1.dp_claimed = true →
      (releaseN (viona_tx env tenv ring0).1.inflight
        (viona_tx env tenv ring0).1.dp_final).1.d_ref = 0) := by
  have hch := viona_tx_chain_spec tenv (iov.map IoVec.iov_len) cookie
    (vq_popchain env ring0 ring0.vr_size).ring
  simp only [viona_tx, hpop]
  exact hch

def wTxEnv : TxEnv where
  txdesb_present := true
  desb_ref0 := 0
  headers_alloc_ok := true
  payload_alloc_ok := fun _ => true
  hook_interested := false
  hook_drop := false
  hook_pullup := false
  csum_needed := false
  csum_ok := true

/-- C3 witness: the exactly-once completion statement instantiated on
the concrete one-descriptor TX chain with zero-copy configured. -/
theorem C3_tx_completion_exactly_once_witness :
    (vq_popchain wEnv wRing wRing.vr_size).res = .ok [⟨100500, 64⟩] 2 ∧
    (((viona_tx wEnv wTxEnv wRing).1.pushes ++
      (releaseN (viona_tx wEnv wTxEnv wRing).1.inflight
        (viona_tx wEnv wTxEnv wRing).1.dp_final).2
      = [((([⟨100500, 64⟩] : List IoVec).map IoVec.iov_len).sum, 2)]) ∧
    ((viona_tx wEnv wTxEnv wRing).1.mac = false →
      (viona_tx wEnv wTxEnv wRing).1.dp_claimed = true →
      (viona_tx wEnv wTxEnv wRing).1.dp_final.d_ref = 0) ∧
    ((viona_tx wEnv wTxEnv wRing).1.dp_claimed = true →
      (releaseN (viona_tx wEnv wTxEnv wRing).1.inflight
        (viona_tx wEnv wTxEnv wRing).1.dp_final).1.d_ref = 0)) :=
  ⟨by decide,
   C3_tx_completion_exactly_once wEnv wTxEnv wRing [⟨100500, 64⟩] 2 (by decide)⟩

/-- Fields that the informational ndesc_too_high bump leaves intact. -/
theorem ring1_eqs (ring : VRing) (r1 : VRing)
    (hr1 : r1 = (if sub16 ring.avail_idx ring.vr_cur_aidx > ring.vr_size then
      { ring with stats := incrStat ring.stats .ndesc_too_high } else ring)) :
    r1.vr_size = ring.vr_size ∧ r1.vr_mask = ring.vr_mask ∧
    r1.vr_cur_aidx = ring.vr_cur_aidx ∧ r1.avail_ring = ring.avail_ring ∧
    r1.descr = ring.descr ∧ r1.used_idx = ring.used_idx ∧
    r1.used_ring = ring.used_ring := by
  subst hr1
  split
  · exact ⟨rfl, rfl, rfl, rfl, rfl, rfl, rfl⟩
  · exact ⟨rfl, rfl, rfl, rfl, rfl, rfl, rfl⟩

/-- vq_popchain never touches the used ring or its index. -/
theorem vq_popchain_used (env : GuestMem) (ring : VRing) (niov : Nat) :
    (vq_popchain env ring niov).ring.used_idx = ring.used_idx ∧
    (vq_popchain env ring niov).ring.used_ring = ring.used_ring := by
  by_cases hnd : sub16 ring.avail_idx ring.vr_cur_aidx = 0
  · rw [vq_popchain_empty env ring niov hnd]
    exact ⟨rfl, rfl⟩
  · have hchar := vq_popchain_go env ring niov hnd _ rfl
    obtain ⟨_, _, _, _, _, hui, hur⟩ := ring1_eqs ring _ rfl
    rcases hloop : popChainLoop env
        (if sub16 ring.avail_idx ring.vr_cur_aidx > ring.vr_size then
          { ring with stats := incrStat ring.stats .ndesc_too_high } else ring)
        niov niov 0
        ((if sub16 ring.avail_idx ring.vr_cur_aidx > ring.vr_size then
          { ring with stats := incrStat ring.stats .ndesc_too_high } else ring).avail_ring
          (ring.vr_cur_aidx &&&
            (if sub16 ring.avail_idx ring.vr_cur_aidx > ring.vr_size then
              { ring with stats := incrStat ring.stats .ndesc_too_high } else ring).vr_mask))
        [] with iov2 | k | _ <;> simp only [hloop] at hchar <;>
      exact ⟨(congrArg (fun o => o.ring.used_idx) hchar).trans hui,
        (congrArg (fun o => o.ring.used_ring) hchar).trans hur⟩

/-- A typed bail of the chain walk determines the vq_popchain outcome:
-1, the named statistic incremented, cur_aidx untouched. -/
theorem vq_popchain_bail_out (env : GuestMem) (ring : VRing) (niov : Nat)
    (k : RingStat)
    (hnd : sub16 ring.avail_idx ring.vr_cur_aidx ≠ 0)
    (hk : k ≠ .ndesc_too_high)
    (hloop : ∀ r1 : VRing, r1.vr_size = ring.vr_size →
      r1.vr_mask = ring.vr_mask → r1.avail_ring = ring.avail_ring →
      r1.descr = ring.descr →
      popChainLoop env r1 niov niov 0
        (r1.avail_ring (ring.vr_cur_aidx &&& r1.vr_mask)) [] = .bail k) :
    (vq_popchain env ring niov).result = -1 ∧
    (vq_popchain env ring niov).ring.stats k = ring.stats k + 1 ∧
    (vq_popchain env ring niov).ring.vr_cur_aidx = ring.vr_cur_aidx := by
  have hchar := vq_popchain_go env ring niov hnd _ rfl
  obtain ⟨hs, hm, hc, ha, hd, _, _⟩ := ring1_eqs ring _ rfl
  have hstat := (ring1_facts ring _ rfl).2.2.2
  rw [hloop _ hs hm ha hd] at hchar
  simp only [] at hchar
  refine ⟨congrArg PopOut.result hchar, ?_, ?_⟩
  · refine (congrArg (fun o => o.ring.stats k) hchar).trans ?_
    show incrStat _ k k = ring.stats k + 1
    rw [incrStat_same, hstat k hk]
  · exact (congrArg (fun o => o.ring.vr_cur_aidx) hchar).trans hc

/-- An INDIRECT head descriptor whose length is not a positive multiple
of 16 bails with indir_bad_len (viona.c lines 2011-2020). -/
theorem popChainLoop_indir_badlen (env : GuestMem) (r : VRing)
    (niov head : Nat) (hniov : 0 < niov)
    (hhead : head < r.vr_size)
    (hflag : (r.descr head).vd_flags &&& VRING_DESC_F_INDIRECT ≠ 0)
    (hlen : (r.descr head).vd_len &&& 0xf ≠ 0 ∨ (r.descr head).vd_len / 16 = 0) :
    popChainLoop env r niov niov 0 head [] = .bail .indir_bad_len := by
  obtain ⟨m, rfl⟩ : ∃ m, niov = m + 1 := ⟨niov - 1, by omega⟩
  rw [popChainLoop]
  rw [if_neg (by omega), if_neg hflag, if_pos hlen]

/-- A nested INDIRECT entry in a translated indirect table bails with
indir_bad_nest (viona.c lines 2040-2045). -/
theorem popChainLoop_indir_nest (env : GuestMem) (r : VRing)
    (niov head tbl : Nat) (hniov : 0 < niov)
    (hhead : head < r.vr_size)
    (hflag : (r.descr head).vd_flags &&& VRING_DESC_F_INDIRECT ≠ 0)
    (hlen0 : (r.descr head).vd_len &&& 0xf = 0)
    (hlen1 : (r.descr head).vd_len / 16 ≠ 0)
    (htr : env.translate (r.descr head).vd_addr (r.descr head).vd_len = some tbl)
    (hnest : (env.readDesc tbl 0).vd_flags &&& VRING_DESC_F_INDIRECT ≠ 0) :
    popChainLoop env r niov niov 0 head [] = .bail .indir_bad_nest := by
  obtain ⟨m, rfl⟩ : ∃ m, niov = m + 1 := ⟨niov - 1, by omega⟩
  rw [popChainLoop]
  rw [if_neg (by omega), if_neg hflag,
    if_neg (by push_neg; exact ⟨hlen0, hlen1⟩)]
  simp only [htr]
  rw [popIndirLoop]
  rw [if_pos hnest]

/-- An indirect-table entry whose NEXT continuation index is not below
the table's entry count bails with indir_bad_next (viona.c lines
2073-2082). -/
theorem popChainLoop_indir_badnext (env : GuestMem) (r : VRing)
    (niov head tbl b : Nat) (hniov : 1 < niov)
    (hhead : head < r.vr_size)
    (hflag : (r.descr head).vd_flags &&& VRING_DESC_F_INDIRECT ≠ 0)
    (hlen0 : (r.descr head).vd_len &&& 0xf = 0)
    (hlen1 : (r.descr head).vd_len / 16 ≠ 0)
    (htr : env.translate (r.descr head).vd_addr (r.descr head).vd_len = some tbl)
    (hflag0 : (env.readDesc tbl 0).vd_flags &&& VRING_DESC_F_INDIRECT = 0)
    (hlenE : (env.readDesc tbl 0).vd_len ≠ 0)
    (htrE : env.translate (env.readDesc tbl 0).vd_addr
      (env.readDesc tbl 0).vd_len = some b)
    (hnext : (env.readDesc tbl 0).vd_flags &&& VRING_DESC_F_NEXT ≠ 0)
    (hbound : (env.readDesc tbl 0).vd_next ≥ (r.descr head).vd_len / 16) :
    popChainLoop env r niov niov 0 head [] = .bail .indir_bad_next := by
  obtain ⟨m, rfl⟩ : ∃ m, niov = m + 1 := ⟨niov - 1, by omega⟩
  rw [popChainLoop]
  rw [if_neg (by omega), if_neg hflag,
    if_neg (by push_neg; exact ⟨hlen0, hlen1⟩)]
  simp only [htr]
  rw [popIndirLoop]
  rw [if_neg (by simpa using hflag0), if_neg hlenE]
  simp only [htrE]
  rw [if_neg hnext, if_neg (by omega), if_pos hbound]

/-- C8: a chain whose INDIRECT head descriptor is accepted only when
its length is a positive multiple of 16; a nested INDIRECT entry in the
indirect table makes vq_popchain return -1 with indir_bad_nest
incremented and cur_aidx unchanged, and an indirect entry whose NEXT
index is not below the table's entry count fails the same way with
indir_bad_next; on any parser failure viona_tx submits nothing to MAC
and pushes no used-ring entry. -/
theorem C8_indirect_chain_validation (env : GuestMem) (tenv : TxEnv)
    (ring : VRing) (niov : Nat) (hniov : 0 < niov)
    (hnd : sub16 ring.avail_idx ring.vr_cur_aidx ≠ 0)
    (hhead : ring.avail_ring (ring.vr_cur_aidx &&& ring.vr_mask) < ring.vr_size)
    (hflag : (ring.descr (ring.avail_ring (ring.vr_cur_aidx &&& ring.vr_mask))).vd_flags &&&
      VRING_DESC_F_INDIRECT ≠ 0) :
    (((ring.descr (ring.avail_ring (ring.vr_cur_aidx &&& ring.vr_mask))).vd_len &&& 0xf ≠ 0 ∨
      (ring.descr (ring.avail_ring (ring.vr_cur_aidx &&& ring.vr_mask))).vd_len / 16 = 0 →
      (vq_popchain env ring niov).result = -1 ∧
      (vq_popchain env ring niov).ring.stats .indir_bad_len =
        ring.stats .indir_bad_len + 1 ∧
      (vq_popchain env ring niov).ring.vr_cur_aidx = ring.vr_cur_aidx)) ∧
    (∀ tbl,
      (ring.descr (ring.avail_ring (ring.vr_cur_aidx &&& ring.vr_mask))).vd_len &&& 0xf = 0 →
      (ring.descr (ring.avail_ring (ring.vr_cur_aidx &&& ring.vr_mask))).vd_len / 16 ≠ 0 →
      env.translate
        (ring.descr (ring.avail_ring (ring.vr_cur_aidx &&& ring.vr_mask))).vd_addr
        (ring.descr (ring.avail_ring (ring.vr_cur_aidx &&& ring.vr_mask))).vd_len = some tbl →
      (((env.readDesc tbl 0).vd_flags &&& VRING_DESC_F_INDIRECT ≠ 0 →
        (vq_popchain env ring niov).result = -1 ∧
        (vq_popchain env ring niov).ring.stats .indir_bad_nest =
          ring.stats .indir_bad_nest + 1 ∧
        (vq_popchain env ring niov).ring.vr_cur_aidx = ring.vr_cur_aidx)) ∧
      (∀ b, 1 < niov →
        (env.readDesc tbl 0).vd_flags &&& VRING_DESC_F_INDIRECT = 0 →
        (env.readDesc tbl 0).vd_len ≠ 0 →
        env.translate (env.readDesc tbl 0).vd_addr
          (env.readDesc tbl 0).vd_len = some b →
        (env.readDesc tbl 0).vd_flags &&& VRING_DESC_F_NEXT ≠ 0 →
        (env.readDesc tbl 0).vd_next ≥
          (ring.descr (ring.avail_ring (ring.vr_cur_aidx &&& ring.vr_mask))).vd_len / 16 →
        (vq_popchain env ring niov).result = -1 ∧
        (vq_popchain env ring niov).ring.stats .indir_bad_next =
          ring.stats .indir_bad_next + 1 ∧
        (vq_popchain env ring niov).ring.vr_cur_aidx = ring.vr_cur_aidx)) ∧
    ((vq_popchain env ring ring.vr_size).res = .fail →
      (viona_tx env tenv ring).1.pushes = [] ∧
      (viona_tx env tenv ring).1.mac = false ∧
      (viona_tx env tenv ring).2.used_idx = ring.used_idx ∧
      (viona_tx env tenv ring).2.used_ring = ring.used_ring) := by
  refine ⟨?_, ?_, ?_⟩
  · intro hlen
    exact vq_popchain_bail_out env ring niov .indir_bad_len hnd (by decide)
      (fun r1 h1 h2 h3 h4 => by
        rw [h3, h2]
        exact popChainLoop_indir_badlen env r1 niov _ hniov
          (h1.symm ▸ hhead) (h4.symm ▸ hflag) (h4.symm ▸ hlen))
  · intro tbl hlen0 hlen1 htr
    refine ⟨?_, ?_⟩
    · intro hnest
      exact vq_popchain_bail_out env ring niov .indir_bad_nest hnd (by decide)
        (fun r1 h1 h2 h3 h4 => by
          rw [h3, h2]
          exact popChainLoop_indir_nest env r1 niov _ tbl hniov
            (h1.symm ▸ hhead) (h4.symm ▸ hflag) (h4.symm ▸ hlen0)
            (h4.symm ▸ hlen1) (h4.symm ▸ htr) hnest)
    · intro b hniov2 hflag0 hlenE htrE hnext hbound
      exact vq_popchain_bail_out env ring niov .indir_bad_next hnd (by decide)
        (fun r1 h1 h2 h3 h4 => by
          rw [h3, h2]
          exact popChainLoop_indir_badnext env r1 niov _ tbl b hniov2
            (h1.symm ▸ hhead) (h4.symm ▸ hflag) (h4.symm ▸ hlen0)
            (h4.symm ▸ hlen1) (h4.symm ▸ htr) hflag0 hlenE htrE hnext
            (h4.symm ▸ hbound))
  · intro hfail
    have hused := vq_popchain_used env ring ring.vr_size
    refine ⟨?_, ?_, ?_, ?_⟩
    · simp only [viona_tx, hfail]
    · simp only [viona_tx, hfail]
    · simp only [viona_tx, hfail]
      exact hused.1
    · simp only [viona_tx, hfail]
      exact hused.2

def w8Env : GuestMem :=
  ⟨fun gpa len => if len > 0 then some (gpa + 100000) else none,
   fun _ i => if i = 0 then ⟨800, 16, VRING_DESC_F_INDIRECT, 0⟩ else ⟨0, 0, 0, 0⟩⟩

def w8Ring : VRing where
  vr_size := 4
  vr_mask := 3
  vr_cur_aidx := 0
  avail_idx := 1
  avail_flags := 0
  avail_ring := fun i => if i = 0 then 2 else 0
  descr := fun i => if i = 2 then ⟨700, 32, VRING_DESC_F_INDIRECT, 0⟩ else ⟨0, 0, 0, 0⟩
  used_idx := 0
  used_flags := 0
  used_ring := fun _ => ⟨0, 0⟩
  stats := fun _ => 0

/-- C8 witness: the nested-indirect chain on a concrete ring, checking
the indir_bad_nest statistic, the unchanged consumer index, and the
absence of MAC submission or used-ring activity. -/
theorem C8_indirect_chain_validation_witness :
    (0 < 32 ∧ sub16 w8Ring.avail_idx w8Ring.vr_cur_aidx ≠ 0 ∧
     w8Ring.avail_ring (w8Ring.vr_cur_aidx &&& w8Ring.vr_mask) < w8Ring.vr_size ∧
     (w8Ring.descr (w8Ring.avail_ring (w8Ring.vr_cur_aidx &&& w8Ring.vr_mask))).vd_flags &&&
       VRING_DESC_F_INDIRECT ≠ 0 ∧
     (w8Ring.descr (w8Ring.avail_ring (w8Ring.vr_cur_aidx &&& w8Ring.vr_mask))).vd_len &&& 0xf = 0 ∧
     (w8Ring.descr (w8Ring.avail_ring (w8Ring.vr_cur_aidx &&& w8Ring.vr_mask))).vd_len / 16 ≠ 0 ∧
     w8Env.translate
       (w8Ring.descr (w8Ring.avail_ring (w8Ring.vr_cur_aidx &&& w8Ring.vr_mask))).vd_addr
       (w8Ring.descr (w8Ring.avail_ring (w8Ring.vr_cur_aidx &&& w8Ring.vr_mask))).vd_len =
       some 100700 ∧
     (w8Env.readDesc 100700 0).vd_flags &&& VRING_DESC_F_INDIRECT ≠ 0 ∧
     (vq_popchain w8Env w8Ring w8Ring.vr_size).res = .fail) ∧
    ((vq_popchain w8Env w8Ring 32).result = -1 ∧
     (vq_popchain w8Env w8Ring 32).ring.stats .indir_bad_nest =
       w8Ring.stats .indir_bad_nest + 1 ∧
     (vq_popchain w8Env w8Ring 32).ring.vr_cur_aidx = w8Ring.vr_cur_aidx) ∧
    ((viona_tx w8Env wTxEnv w8Ring).1.pushes = [] ∧
     (viona_tx w8Env wTxEnv w8Ring).1.mac = false ∧
     (viona_tx w8Env wTxEnv w8Ring).2.used_idx = w8Ring.used_idx ∧
     (viona_tx w8Env wTxEnv w8Ring).2.used_ring w8Ring.used_idx =
       w8Ring.used_ring w8Ring.used_idx) :=
  ⟨⟨by decide, by decide, by decide, by decide, by decide, by decide, by decide,
    by decide, by decide⟩,
   ((C8_indirect_chain_validation w8Env wTxEnv w8Ring 32 (by decide) (by decide)
      (by decide) (by decide)).2.1 100700 (by decide) (by decide)
      (by decide)).1 (by decide),
   by
     have h := (C8_indirect_chain_validation w8Env wTxEnv w8Ring 32 (by decide)
       (by decide) (by decide) (by decide)).2.2 (by decide)
     exact ⟨h.1, h.2.1, h.2.2.1, congrFun h.2.2.2 w8Ring.used_idx⟩⟩

/-! RX path: the frame-copy helper viona_copy_mblk (viona.c lines
2167-2223), the plain receive layout viona_recv_plain (lines
2225-2318), the mergeable layout viona_recv_merged (lines 2320-2479)
and the per-frame portion of viona_rx_common (lines 2481-2673).  A
host frame chain (mblk_t chain) is a list of byte-lists; guest buffer
writes are recorded as the byte sequences laid down in each popped
segment. -/

/-- struct virtio_net_hdr contents (the mergeable variant adds
vrh_bufs). -/
structure VNetHdr where
  vrh_flags : Nat
  vrh_gso_type : Nat
  vrh_hdr_len : Nat
  vrh_gso_size : Nat
  vrh_csum_start : Nat
  vrh_csum_offset : Nat
deriving DecidableEq, Repr

def zeroHdr : VNetHdr := ⟨0, 0, 0, 0, 0, 0⟩

/-- The 10-byte little-endian layout of struct virtio_net_hdr as it
lands in the guest buffer. -/
def hdrBytes (h : VNetHdr) : List Nat :=
  [h.vrh_flags % 256, h.vrh_gso_type % 256,
   h.vrh_hdr_len % 256, h.vrh_hdr_len / 256 % 256,
   h.vrh_gso_size % 256, h.vrh_gso_size / 256 % 256,
   h.vrh_csum_start % 256, h.vrh_csum_start / 256 % 256,
   h.vrh_csum_offset % 256, h.vrh_csum_offset / 256 % 256]

/-- Offload metadata attached to a host frame (DB_CKSUMFLAGS,
DB_LSOMSS, and the flags mac_hcksum_get reports). -/
structure MblkMeta where
  cksum_flags : Nat
  lso_mss : Nat
  hck_flags : Nat
deriving DecidableEq, Repr

/-- The checksum/GSO population shared by both receive layouts
(viona.c lines 2290-2305 and 2437-2452): only with GUEST_CSUM
negotiated; TSO4 plus an LSO-marked frame sets the TCPV4 gso fields,
and a MAC-verified full checksum sets DATA_VALID. -/
def buildNetHdr (features : Nat) (meta : MblkMeta) (h0 : VNetHdr) : VNetHdr :=
  if features &&& VIRTIO_NET_F_GUEST_CSUM ≠ 0 then
    let h1 :=
      if features &&& VIRTIO_NET_F_GUEST_TSO4 ≠ 0 ∧
          meta.cksum_flags &&& HW_LSO ≠ 0 then
        { h0 with vrh_gso_type := h0.vrh_gso_type ||| VIRTIO_NET_HDR_GSO_TCPV4,
                  vrh_gso_size := meta.lso_mss }
      else h0
    if meta.hck_flags &&& HCK_FULLCKSUM_OK ≠ 0 then
      { h1 with vrh_flags := h1.vrh_flags ||| VIRTIO_NET_HDR_F_DATA_VALID }
    else h1
  else h0

/-- The seek phase of viona_copy_mblk: walk past already-consumed
bytes, returning the remaining chain and the offset into its first
block. -/
def copySeek : List (List Nat) → Nat → List (List Nat) × Nat
  | mp, 0 => (mp, 0)
  | [], _ + 1 => ([], 0)
  | b :: rest, s + 1 =>
    if b.length > s + 1 then (b :: rest, s + 1)
    else copySeek rest (s + 1 - b.length)

/-- The copy phase of viona_copy_mblk: copy until the destination
fills or the source chain ends; the boolean is the end-of-source
report (mp == NULL on exit). -/
def copyLoop : List (List Nat) → Nat → Nat → List Nat × Bool
  | [], _, _ => ([], true)
  | b :: rest, off, len =>
    if b.length - off = min (b.length - off) len then
      if len - min (b.length - off) len = 0 then
        ((b.drop off).take (min (b.length - off) len), rest.isEmpty)
      else
        ((b.drop off).take (min (b.length - off) len) ++
          (copyLoop rest 0 (len - min (b.length - off) len)).1,
         (copyLoop rest 0 (len - min (b.length - off) len)).2)
    else
      ((b.drop off).take (min (b.length - off) len), false)

/-- viona_copy_mblk: seek, then copy up to len bytes into the
destination span, reporting the bytes written and end-of-source. -/
def viona_copy_mblk (mp : List (List Nat)) (seek len : Nat) :
    List Nat × Bool :=
  copyLoop (copySeek mp seek).1 (copySeek mp seek).2 len

/-- Outcome of one receive-into-guest-buffers operation.  seg0 is the
final content of the written prefix of the first popped buffer when
that prefix was fully laid down (header plus payload); restWrites are
the byte runs copied into the subsequent buffers. -/
structure RecvOut where
  err : Nat
  ring : VRing
  seg0 : Option (List Nat)
  restWrites : List (List Nat)
  copied : Nat
  pushes : List (Nat × Nat)

/-- The tail-segment copy loop of viona_recv_plain (lines 2269-2275):
fill each further buffer while the source is not exhausted. -/
def recvPlainSegs (mp : List (List Nat)) :
    List Nat → Nat → Bool → List (List Nat) × Nat × Bool
  | [], copied, e => ([], copied, e)
  | len :: rest, copied, e =>
    if e then ([], copied, e)
    else
      ((viona_copy_mblk mp copied len).1 ::
        (recvPlainSegs mp rest (copied + (viona_copy_mblk mp copied len).1.length)
          (viona_copy_mblk mp copied len).2).1,
       (recvPlainSegs mp rest (copied + (viona_copy_mblk mp copied len).1.length)
         (viona_copy_mblk mp copied len).2).2)

/-- The copy phase of viona_recv_plain (lines 2258-2275): payload
into the space after the header in the first buffer, then across the
remaining buffers.  Returns (first-buffer payload bytes, writes into
the further buffers, total bytes copied). -/
def recvPlainCore (mp : List (List Nat)) (len0 : Nat) (rest : List Nat) :
    List Nat × List (List Nat) × Nat :=
  if len0 > VNET_HDR_SZ then
    ((viona_copy_mblk mp 0 (len0 - VNET_HDR_SZ)).1,
     (recvPlainSegs mp rest (viona_copy_mblk mp 0 (len0 - VNET_HDR_SZ)).1.length
       (viona_copy_mblk mp 0 (len0 - VNET_HDR_SZ)).2).1,
     (recvPlainSegs mp rest (viona_copy_mblk mp 0 (len0 - VNET_HDR_SZ)).1.length
       (viona_copy_mblk mp 0 (len0 - VNET_HDR_SZ)).2).2.1)
  else
    ([], (recvPlainSegs mp rest 0 false).1, (recvPlainSegs mp rest 0 false).2.1)

/-- viona_recv_plain (lines 2225-2318): pop one chain, require the
first buffer to hold the 10-byte header, copy the frame across the
buffers, and push one completion; a short first buffer is zeroed and a
copy shortfall drops the frame, both pushing
MAX(copied, MIN_BUF_SIZE + header size) and returning EINVAL. -/
def viona_recv_plain (env : GuestMem) (features : Nat) (meta : MblkMeta)
    (ring : VRing) (mp : List (List Nat)) (msz : Nat) : RecvOut :=
  match (vq_popchain env ring VTNET_MAXSEGS).res with
  | .empty => ⟨ENOSPC, (vq_popchain env ring VTNET_MAXSEGS).ring, none, [], 0, []⟩
  | .fail => ⟨ENOSPC, (vq_popchain env ring VTNET_MAXSEGS).ring, none, [], 0, []⟩
  | .ok iov cookie =>
    if iov.headI.iov_len < VNET_HDR_SZ then
      ⟨EINVAL,
       vq_pushchain
         { (vq_popchain env ring VTNET_MAXSEGS).ring with
           stats := incrStat (vq_popchain env ring VTNET_MAXSEGS).ring.stats
             .bad_rx_frame }
         (max 0 (MIN_BUF_SIZE + VNET_HDR_SZ)) cookie,
       some (List.replicate iov.headI.iov_len 0), [], 0,
       [(max 0 (MIN_BUF_SIZE + VNET_HDR_SZ), cookie)]⟩
    else if (recvPlainCore mp iov.headI.iov_len ((iov.drop 1).map IoVec.iov_len)).2.2
        ≠ msz then
      ⟨EINVAL,
       vq_pushchain
         { (vq_popchain env ring VTNET_MAXSEGS).ring with
           stats := incrStat
             (incrStat (vq_popchain env ring VTNET_MAXSEGS).ring.stats .too_short)
             .bad_rx_frame }
         (max (recvPlainCore mp iov.headI.iov_len ((iov.drop 1).map IoVec.iov_len)).2.2
           (MIN_BUF_SIZE + VNET_HDR_SZ)) cookie,
       none,
       (recvPlainCore mp iov.headI.iov_len ((iov.drop 1).map IoVec.iov_len)).2.1,
       (recvPlainCore mp iov.headI.iov_len ((iov.drop 1).map IoVec.iov_len)).2.2,
       [(max (recvPlainCore mp iov.headI.iov_len ((iov.drop 1).map IoVec.iov_len)).2.2
          (MIN_BUF_SIZE + VNET_HDR_SZ), cookie)]⟩
    else
      ⟨0,
       vq_pushchain (vq_popchain env ring VTNET_MAXSEGS).ring
         ((recvPlainCore mp iov.headI.iov_len ((iov.drop 1).map IoVec.iov_len)).2.2
           + VNET_HDR_SZ) cookie,
       some (hdrBytes (buildNetHdr features meta zeroHdr) ++
         (recvPlainCore mp iov.headI.iov_len ((iov.drop 1).map IoVec.iov_len)).1),
       (recvPlainCore mp iov.headI.iov_len ((iov.drop 1).map IoVec.iov_len)).2.1,
       (recvPlainCore mp iov.headI.iov_len ((iov.drop 1).map IoVec.iov_len)).2.2,
       [((recvPlainCore mp iov.headI.iov_len ((iov.drop 1).map IoVec.iov_len)).2.2
          + VNET_HDR_SZ, cookie)]⟩

/-- Length-level image of viona_copy_mblk: the seek phase over block
lengths. -/
def copySeekN : List Nat → Nat → List Nat × Nat
  | mpl, 0 => (mpl, 0)
  | [], _ + 1 => ([], 0)
  | b :: rest, s + 1 =>
    if b > s + 1 then (b :: rest, s + 1)
    else copySeekN rest (s + 1 - b)

/-- Length-level image of viona_copy_mblk: the copy phase over block
lengths, returning the byte count copied and the end-of-source flag. -/
def copyLoopN : List Nat → Nat → Nat → Nat × Bool
  | [], _, _ => (0, true)
  | b :: rest, off, len =>
    if b - off = min (b - off) len then
      if len - min (b - off) len = 0 then
        (min (b - off) len, rest.isEmpty)
      else
        (min (b - off) len + (copyLoopN rest 0 (len - min (b - off) len)).1,
         (copyLoopN rest 0 (len - min (b - off) len)).2)
    else
      (min (b - off) len, false)

/-- viona_copy_mblk restricted to the quantities the mergeable receive
path consumes: the count of bytes copied and the end-of-source report
(an exact image of viona_copy_mblk over block lengths, see
viona_copy_mblk_n_spec). -/
def viona_copy_mblk_n (mpl : List Nat) (seek len : Nat) : Nat × Bool :=
  copyLoopN (copySeekN mpl seek).1 (copySeekN mpl seek).2 len

/-- The inner per-segment copy of viona_recv_merged (lines 2375-2382):
note the source accumulates chunk across the chain and adds the whole
accumulated chunk to copied after each segment. -/
def mergedInner (mpl : List Nat) :
    List Nat → Nat → Nat → Bool → Nat × Nat × Bool
  | [], chunk, copied, e => (chunk, copied, e)
  | len :: rest, chunk, copied, e =>
    if e then (chunk, copied, e)
    else
      mergedInner mpl rest
        (chunk + (viona_copy_mblk_n mpl copied len).1)
        (copied + chunk + (viona_copy_mblk_n mpl copied len).1)
        (viona_copy_mblk_n mpl copied len).2

/-- State carried out of the mergeable-receive do-while loop. -/
structure MLoopState where
  err : Nat
  ring : VRing
  uelem : List UsedElem
  bufs : Nat
  copied : Nat
  buf_idx : Nat

/-- The do-while of viona_recv_merged (lines 2374-2420): copy into the
current chain, record its used element, and pop further chains while
the frame is unconsumed; the per-frame chain cap yields EOVERFLOW and
an exhausted ring yields EMSGSIZE.  copied strictly increases per
iteration while below msz, so fuel of msz + 2 (as passed by
viona_recv_merged) is never exhausted; segs are the segment lengths of
the current chain not yet visited. -/
def mergedLoop (env : GuestMem) (mpl : List Nat) (msz : Nat) :
    Nat → VRing → List Nat → Nat → Nat → Nat → Bool → Nat →
    List UsedElem → Nat → MLoopState
  | 0, ring, _, _, chunk, copied, _, buf_idx, uelem, bufs =>
    ⟨0, ring, uelem, bufs, copied, buf_idx⟩
  | fuel + 1, ring, segs, cookie, chunk, copied, e, buf_idx, uelem, bufs =>
    if (mergedInner mpl segs chunk copied e).2.2 then
      ⟨0, ring, uelem ++ [⟨cookie, (mergedInner mpl segs chunk copied e).1⟩],
       bufs, (mergedInner mpl segs chunk copied e).2.1, buf_idx⟩
    else if buf_idx = VTNET_MAXSEGS - 1 then
      ⟨EOVERFLOW, ring,
       uelem ++ [⟨cookie, (mergedInner mpl segs chunk copied e).1⟩],
       bufs, (mergedInner mpl segs chunk copied e).2.1, buf_idx⟩
    else
      match (vq_popchain env ring VTNET_MAXSEGS).res with
      | .empty =>
        ⟨EMSGSIZE, (vq_popchain env ring VTNET_MAXSEGS).ring,
         uelem ++ [⟨cookie, (mergedInner mpl segs chunk copied e).1⟩],
         bufs, (mergedInner mpl segs chunk copied e).2.1, buf_idx⟩
      | .fail =>
        ⟨EMSGSIZE, (vq_popchain env ring VTNET_MAXSEGS).ring,
         uelem ++ [⟨cookie, (mergedInner mpl segs chunk copied e).1⟩],
         bufs, (mergedInner mpl segs chunk copied e).2.1, buf_idx⟩
      | .ok iov2 cookie2 =>
        if (mergedInner mpl segs chunk copied e).2.1 < msz then
          mergedLoop env mpl msz fuel (vq_popchain env ring VTNET_MAXSEGS).ring
            (iov2.map IoVec.iov_len) cookie2 0
            (mergedInner mpl segs chunk copied e).2.1 false (buf_idx + 1)
            (uelem ++ [⟨cookie, (mergedInner mpl segs chunk copied e).1⟩])
            (bufs + 1)
        else
          ⟨0, (vq_popchain env ring VTNET_MAXSEGS).ring,
           uelem ++ [⟨cookie, (mergedInner mpl segs chunk copied e).1⟩],
           bufs + 1, (mergedInner mpl segs chunk copied e).2.1, buf_idx + 1⟩

/-- Outcome of viona_recv_merged: hdr holds the final header contents
and its vrh_bufs count when a first buffer large enough for the
12-byte header was obtained. -/
structure MergedOut where
  err : Nat
  ring : VRing
  hdr : Option (VNetHdr × Nat)
  uelem : List UsedElem
  num_bufs : Nat
  copied : Nat

/-- Statistic recorded by the done switch of viona_recv_merged (lines
2454-2476). -/
def mergedDoneStat (err : Nat) (s : Stats) : Stats :=
  if err = 0 then s
  else if err = EMSGSIZE then incrStat s .rx_merge_underrun
  else if err = EOVERFLOW then incrStat s .rx_merge_overrun
  else incrStat s .bad_rx_frame

/-- The post-loop tail of viona_recv_merged (lines 2422-2478): account
the header size in the first used element, flag a short copy (EINVAL,
too_short), populate the checksum/GSO header bits, record the done
statistic and push buf_idx + 1 used elements. -/
def mergedFinish (features : Nat) (meta : MblkMeta) (msz : Nat)
    (st : MLoopState) : MergedOut :=
  ⟨(if st.err = 0 ∧ st.copied ≠ msz then EINVAL else st.err),
   vq_pushchain_mrgrx
     { st.ring with
       stats := mergedDoneStat
         (if st.err = 0 ∧ st.copied ≠ msz then EINVAL else st.err)
         (if st.err = 0 ∧ st.copied ≠ msz then
           incrStat st.ring.stats .too_short
         else st.ring.stats) }
     (st.buf_idx + 1)
     (match st.uelem with
      | [] => []
      | e :: tl => ⟨e.id, e.len + VNET_MRGHDR_SZ⟩ :: tl),
   some (buildNetHdr features meta zeroHdr, st.bufs),
   (match st.uelem with
    | [] => []
    | e :: tl => ⟨e.id, e.len + VNET_MRGHDR_SZ⟩ :: tl),
   st.buf_idx + 1, st.copied⟩

/-- viona_recv_merged (lines 2320-2479): pop the first chain, lay down
the 12-byte mergeable header, run the chain-merging copy loop, account
the header in the first used element, flag a short copy as EINVAL with
too_short, populate the checksum/GSO bits, record the done statistic
and push all consumed chains in one multi-element operation. -/
def viona_recv_merged (env : GuestMem) (features : Nat) (meta : MblkMeta)
    (ring : VRing) (mpl : List Nat) (msz : Nat) : MergedOut :=
  match (vq_popchain env ring VTNET_MAXSEGS).res with
  | .empty =>
    ⟨ENOSPC,
     { (vq_popchain env ring VTNET_MAXSEGS).ring with
       stats := incrStat (vq_popchain env ring VTNET_MAXSEGS).ring.stats .no_space },
     none, [], 0, 0⟩
  | .fail =>
    ⟨ENOSPC,
     { (vq_popchain env ring VTNET_MAXSEGS).ring with
       stats := incrStat (vq_popchain env ring VTNET_MAXSEGS).ring.stats .no_space },
     none, [], 0, 0⟩
  | .ok iov cookie =>
    if iov.headI.iov_len < VNET_MRGHDR_SZ then
      ⟨EINVAL,
       vq_pushchain_mrgrx
         { (vq_popchain env ring VTNET_MAXSEGS).ring with
           stats := mergedDoneStat EINVAL
             (vq_popchain env ring VTNET_MAXSEGS).ring.stats } 1
         [⟨cookie, iov.headI.iov_len⟩],
       none, [⟨cookie, iov.headI.iov_len⟩], 1, 0⟩
    else
      mergedFinish features meta msz
        (mergedLoop env mpl msz (msz + 2)
          (vq_popchain env ring VTNET_MAXSEGS).ring
          ((iov.drop 1).map IoVec.iov_len) cookie
          (if iov.headI.iov_len > VNET_MRGHDR_SZ then
            (viona_copy_mblk_n mpl 0
              (iov.headI.iov_len - VNET_MRGHDR_SZ)).1
          else 0)
          (if iov.headI.iov_len > VNET_MRGHDR_SZ then
            (viona_copy_mblk_n mpl 0
              (iov.headI.iov_len - VNET_MRGHDR_SZ)).1
          else 0)
          (if iov.headI.iov_len > VNET_MRGHDR_SZ then
            (viona_copy_mblk_n mpl 0
              (iov.headI.iov_len - VNET_MRGHDR_SZ)).2
          else false)
          0 [] 1)

theorem copySeekN_spec : ∀ (mp : List (List Nat)) (s : Nat),
    copySeekN (mp.map List.length) s =
      ((copySeek mp s).1.map List.length, (copySeek mp s).2) := by
  intro mp
  induction mp with
  | nil =>
    intro s
    cases s with
    | zero => rfl
    | succ t => rfl
  | cons b rest ih =>
    intro s
    cases s with
    | zero => rfl
    | succ t =>
      simp only [List.map_cons]
      rw [copySeekN, copySeek]
      split
      · simp
      · exact ih (t + 1 - b.length)

theorem copyLoopN_spec : ∀ (mp : List (List Nat)) (off len : Nat),
    copyLoopN (mp.map List.length) off len =
      ((copyLoop mp off len).1.length, (copyLoop mp off len).2) := by
  intro mp
  induction mp with
  | nil => intro off len; rfl
  | cons b rest ih =>
    intro off len
    simp only [List.map_cons]
    rw [copyLoopN, copyLoop]
    split
    · split
      · cases rest <;> simp
      · rw [ih 0 (len - min (b.length - off) len)]
        simp [Prod.ext_iff]
    · simp [Prod.ext_iff]

/-- The length-level copy is an exact image of viona_copy_mblk. -/
theorem viona_copy_mblk_n_spec (mp : List (List Nat)) (seek len : Nat) :
    viona_copy_mblk_n (mp.map List.length) seek len =
      ((viona_copy_mblk mp seek len).1.length, (viona_copy_mblk mp seek len).2) := by
  rw [viona_copy_mblk_n, viona_copy_mblk, copySeekN_spec]
  exact copyLoopN_spec (copySeek mp seek).1 (copySeek mp seek).2 len

/-- Outcome of delivering one classified frame through the per-frame
portion of viona_rx_common. -/
structure RxOneOut where
  err : Nat
  ring : VRing
  seg0 : Option (List Nat)
  pushes : List (Nat × Nat)
  copied : Nat
  intr : Bool

/-- Layout dispatch of viona_rx_common (lines 2604-2608) plus the
post-batch interrupt condition (lines 2652-2655). -/
def viona_rx_deliver (env : GuestMem) (features : Nat) (meta : MblkMeta)
    (ring : VRing) (mp : List (List Nat)) (msz : Nat) : RxOneOut :=
  if features &&& VIRTIO_NET_F_MRG_RXBUF ≠ 0 then
    ⟨(viona_recv_merged env features meta ring (mp.map List.length) msz).err,
     (viona_recv_merged env features meta ring (mp.map List.length) msz).ring,
     none,
     (viona_recv_merged env features meta ring (mp.map List.length) msz).uelem.map
       (fun e => (e.len, e.id)),
     (viona_recv_merged env features meta ring (mp.map List.length) msz).copied,
     ring.avail_flags &&& VRING_AVAIL_F_NO_INTERRUPT == 0⟩
  else
    ⟨(viona_recv_plain env features meta ring mp msz).err,
     (viona_recv_plain env features meta ring mp msz).ring,
     (viona_recv_plain env features meta ring mp msz).seg0,
     (viona_recv_plain env features meta ring mp msz).pushes,
     (viona_recv_plain env features meta ring mp msz).copied,
     ring.avail_flags &&& VRING_AVAIL_F_NO_INTERRUPT == 0⟩

/-- The per-frame portion of viona_rx_common (viona.c lines 2512-2655)
for a classified frame carrying no offload flags (HW_LOCAL_MAC and
HW_LSO clear, so the mac_hw_emul calls leave it unchanged) on a link
whose inbound nethook has no subscriber: pad to the 60-byte minimum
(reusing the zero-filled VLAN pad for frames short by exactly
VLAN_TAGSZ, else a fresh zero-filled block, counting rx_pad_short),
deliver through the mergeable or plain layout, and report whether the
RX interrupt is raised, which the batch tail does exactly when the
guest has not set VRING_AVAIL_F_NO_INTERRUPT. -/
def viona_rx_one (env : GuestMem) (features : Nat) (meta : MblkMeta)
    (ring : VRing) (frame : List Nat) (pad_alloc_ok : Bool) : RxOneOut :=
  if frame.length = NEED_VLAN_PAD_SIZE then
    viona_rx_deliver env features meta ring
      [frame, List.replicate VLAN_TAGSZ 0] (frame.length + VLAN_TAGSZ)
  else if frame.length < MIN_BUF_SIZE then
    if pad_alloc_ok then
      viona_rx_deliver env features meta
        { ring with stats := incrStat ring.stats .rx_pad_short }
        [frame, List.replicate (MIN_BUF_SIZE - frame.length) 0] MIN_BUF_SIZE
    else
      ⟨ENOMEM, ring, none, [], 0,
       ring.avail_flags &&& VRING_AVAIL_F_NO_INTERRUPT == 0⟩
  else
    viona_rx_deliver env features meta ring [frame] frame.length

/-! C4: the mergeable-RX TSO arrival scenario. -/

/-- Guest memory for the C4 scenario: every nonempty range maps, and
the descriptor table is supplied by the ring itself. -/
def c4Env : GuestMem :=
  ⟨fun gpa len => if len > 0 then some (gpa + 100000) else none, fun _ _ => ⟨0, 0, 0, 0⟩⟩

/-- C4 ring: four available single-descriptor chains, each 1526 bytes,
device-writable. -/
def c4Ring : VRing where
  vr_size := 4
  vr_mask := 3
  vr_cur_aidx := 0
  avail_idx := 4
  avail_flags := 0
  avail_ring := fun i => i % 4
  descr := fun i => ⟨1000 * i, 1526, VRING_DESC_F_WRITE, 0⟩
  used_idx := 0
  used_flags := 0
  used_ring := fun _ => ⟨0, 0⟩
  stats := fun _ => 0

/-- C4 frame metadata: LSO with MSS 1448, no checksum-verified flags. -/
def c4Meta : MblkMeta := ⟨HW_LSO, 1448, 0⟩

/-- C4 negotiated features: MRG_RXBUF, GUEST_TSO4 and GUEST_CSUM. -/
def c4Feat : Nat :=
  VIRTIO_NET_F_MRG_RXBUF + VIRTIO_NET_F_GUEST_TSO4 + VIRTIO_NET_F_GUEST_CSUM

/-- C4 counterexample: in the claimed scenario (four 1526-byte buffers
posted, 5000-byte LSO frame, MSS 1448) the mergeable RX path delivers
the frame without error but consumes FOUR used entries, not three, and
writes bufs = 4, not 3, into the first buffer's header: 5012 bytes
spread over buffers holding 1514 + 1526 + 1526 payload bytes after
their headers' 12-byte charge leaves a fourth 434-byte remainder. -/
theorem C4_merged_tso_counterexample :
    (viona_recv_merged c4Env c4Feat c4Meta c4Ring [5000] 5000).err = 0 ∧
    (viona_recv_merged c4Env c4Feat c4Meta c4Ring [5000] 5000).uelem.length ≠ 3 ∧
    (viona_recv_merged c4Env c4Feat c4Meta c4Ring [5000] 5000).hdr ≠
      some (⟨0, VIRTIO_NET_HDR_GSO_TCPV4, 0, 1448, 0, 0⟩, 3) := by
  decide

/-- C4 (amended): with MRG_RXBUF, GUEST_TSO4 and GUEST_CSUM negotiated,
four posted 1526-byte single-descriptor chains and a 5000-byte LSO
frame with MSS 1448, viona_recv_merged consumes four used entries of
lengths 1526, 1526, 1526 and 434 (the first charged the 12-byte
mergeable header), writes bufs = 4 and gso_type = TCPV4, gso_size =
1448 into the header laid into the first buffer, reports no error, the
pushed completion lengths sum to 5012 = 5000 + 12, and used_idx and
cur_aidx both advance to 4. -/
theorem C4_merged_tso_amended :
    (viona_recv_merged c4Env c4Feat c4Meta c4Ring [5000] 5000).num_bufs = 4 ∧
    (viona_recv_merged c4Env c4Feat c4Meta c4Ring [5000] 5000).uelem =
      [⟨0, 1526⟩, ⟨1, 1526⟩, ⟨2, 1526⟩, ⟨3, 434⟩] ∧
    (viona_recv_merged c4Env c4Feat c4Meta c4Ring [5000] 5000).hdr =
      some (⟨0, VIRTIO_NET_HDR_GSO_TCPV4, 0, 1448, 0, 0⟩, 4) ∧
    (viona_recv_merged c4Env c4Feat c4Meta c4Ring [5000] 5000).err = 0 ∧
    ((viona_recv_merged c4Env c4Feat c4Meta c4Ring [5000] 5000).uelem.map
      UsedElem.len).sum = 5012 ∧
    (viona_recv_merged c4Env c4Feat c4Meta c4Ring [5000] 5000).ring.used_idx = 4 ∧
    (viona_recv_merged c4Env c4Feat c4Meta c4Ring [5000] 5000).ring.vr_cur_aidx = 4 := by
  decide

/-! The pop/push machinery never reads the available-ring flag word:
it only carries it through.  These congruence lemmas let a scenario
theorem range over an arbitrary flag word while everything else is
evaluated concretely. -/

/-- Replace the available-ring flag word of a ring. -/
def setAF (r : VRing) (af : Nat) : VRing := { r with avail_flags := af }

theorem popChainLoop_af (env : GuestMem) (s m c a fl fl' : Nat) (ar : Nat → Nat)
    (d : Nat → VirtioDesc) (ui uf : Nat) (ur : Nat → VirtioUsed) (st : Stats)
    (niov : Nat) :
    ∀ fuel i next iov,
      popChainLoop env ⟨s, m, c, a, fl, ar, d, ui, uf, ur, st⟩ niov fuel i next iov =
        popChainLoop env ⟨s, m, c, a, fl', ar, d, ui, uf, ur, st⟩ niov fuel i next iov := by
  intro fuel
  induction fuel with
  | zero => intro i next iov; rfl
  | succ n ih =>
    intro i next iov
    simp only [popChainLoop, ih]

theorem vq_popchain_setAF (env : GuestMem) (r : VRing) (af niov : Nat) :
    vq_popchain env (setAF r af) niov =
      ⟨(vq_popchain env r niov).res,
       setAF (vq_popchain env r niov).ring af⟩ := by
  cases r with
  | mk s m c a fl ar d ui uf ur st =>
    simp only [vq_popchain, setAF]
    split
    · rfl
    · by_cases hgt : sub16 a c > s
      · simp only [if_pos hgt]
        rw [popChainLoop_af env s m c a af fl ar d ui uf ur
          (incrStat st RingStat.ndesc_too_high) niov]
        split <;> rfl
      · simp only [if_neg hgt]
        rw [popChainLoop_af env s m c a af fl ar d ui uf ur st niov]
        split <;> rfl

theorem vq_pushchain_setAF (r : VRing) (af len cookie : Nat) :
    vq_pushchain (setAF r af) len cookie = setAF (vq_pushchain r len cookie) af := rfl

theorem viona_recv_plain_setAF (env : GuestMem) (feat : Nat) (meta : MblkMeta)
    (r : VRing) (af : Nat) (mp : List (List Nat)) (msz : Nat) :
    viona_recv_plain env feat meta (setAF r af) mp msz =
      { viona_recv_plain env feat meta r mp msz with
        ring := setAF (viona_recv_plain env feat meta r mp msz).ring af } := by
  simp only [viona_recv_plain, vq_popchain_setAF]
  split <;> try rfl
  split <;> try rfl
  split <;> rfl

/-! C5: the plain-RX small-frame scenario. -/

/-- Guest memory for the C5 scenario: every nonempty range maps. -/
def c5Env : GuestMem :=
  ⟨fun gpa len => if len > 0 then some (gpa + 100000) else none, fun _ _ => ⟨0, 0, 0, 0⟩⟩

/-- C5 ring: one available single-descriptor chain of 2048 bytes at
head 0; the available-ring flag word is left free. -/
def c5Ring (af : Nat) : VRing where
  vr_size := 2
  vr_mask := 1
  vr_cur_aidx := 0
  avail_idx := 1
  avail_flags := af
  avail_ring := fun _ => 0
  descr := fun _ => ⟨4096, 2048, VRING_DESC_F_WRITE, 0⟩
  used_idx := 0
  used_flags := 0
  used_ring := fun _ => ⟨0, 0⟩
  stats := fun _ => 0

/-- A frame with no offload metadata leaves the virtio-net header
zero-filled. -/
theorem buildNetHdr_plainMeta (feat : Nat) (meta : MblkMeta)
    (h1 : meta.cksum_flags = 0) (h2 : meta.hck_flags = 0) :
    buildNetHdr feat meta zeroHdr = zeroHdr := by
  simp [buildNetHdr, h1, h2, HCK_FULLCKSUM_OK, HW_LSO]

theorem c5_copyLoop (frame : List Nat) (h : frame.length = 42) :
    copyLoop [frame, List.replicate 18 0] 0 2038 =
      (frame ++ List.replicate 18 0, true) := by
  have ht : frame.take 42 = frame := by
    rw [← h]; exact List.take_length frame
  simp [copyLoop, h, ht]

theorem c5_core (frame : List Nat) (h : frame.length = 42) :
    recvPlainCore [frame, List.replicate 18 0] 2048 [] =
      (frame ++ List.replicate 18 0, [], 60) := by
  have hc : viona_copy_mblk [frame, List.replicate 18 0] 0 2038 =
      (frame ++ List.replicate 18 0, true) := by
    rw [viona_copy_mblk]
    exact c5_copyLoop frame h
  rw [recvPlainCore]
  norm_num [VNET_HDR_SZ, hc, recvPlainSegs, h]

/-- The C5 ring with a clear flag word, after the rx_pad_short bump
the short-frame pad path performs. -/
def c5R0 : VRing :=
  { c5Ring 0 with stats := incrStat (c5Ring 0).stats .rx_pad_short }

theorem c5_recv (frame : List Nat) (feat : Nat) (meta : MblkMeta)
    (h : frame.length = 42)
    (hm1 : meta.cksum_flags = 0) (hm2 : meta.hck_flags = 0) :
    (viona_recv_plain c5Env feat meta c5R0 [frame, List.replicate 18 0] 60).err = 0 ∧
    (viona_recv_plain c5Env feat meta c5R0 [frame, List.replicate 18 0] 60).pushes =
      [(70, 0)] ∧
    (viona_recv_plain c5Env feat meta c5R0 [frame, List.replicate 18 0] 60).seg0 =
      some (List.replicate 10 0 ++ (frame ++ List.replicate 18 0)) ∧
    (viona_recv_plain c5Env feat meta c5R0
      [frame, List.replicate 18 0] 60).ring.vr_cur_aidx = 1 ∧
    (viona_recv_plain c5Env feat meta c5R0
      [frame, List.replicate 18 0] 60).ring.used_idx = 1 ∧
    (viona_recv_plain c5Env feat meta c5R0
      [frame, List.replicate 18 0] 60).ring.used_ring 0 = ⟨0, 70⟩ := by
  have hres : (vq_popchain c5Env c5R0 VTNET_MAXSEGS).res =
      PopRes.ok [⟨104096, 2048⟩] 0 := rfl
  have hz : hdrBytes (buildNetHdr feat meta zeroHdr) = List.replicate 10 0 := by
    rw [buildNetHdr_plainMeta feat meta hm1 hm2]; rfl
  simp only [viona_recv_plain, hres]
  norm_num [List.headI, VNET_HDR_SZ, c5_core frame h, hz]
  refine ⟨rfl, rfl, rfl⟩

/-- C5: With MRG_RXBUF off, one posted 2048-byte descriptor at head 0
and a delivered 42-byte frame carrying no offload metadata, the plain
RX path pads the frame to the 60-byte minimum, pushes exactly one used
entry with id 0 and len 10 + max(42, 60) = 70, lays down the ten zero
header bytes followed by the frame and 18 zero pad bytes, advances
cur_aidx and used_idx each by exactly one, and raises the RX interrupt
exactly when the guest left VRING_AVAIL_F_NO_INTERRUPT clear in the
available-ring flag word. -/
theorem C5_plain_rx_small_frame (frame : List Nat) (af feat : Nat) (meta : MblkMeta)
    (h : frame.length = 42)
    (hm1 : meta.cksum_flags = 0) (hm2 : meta.hck_flags = 0)
    (hf : feat &&& VIRTIO_NET_F_MRG_RXBUF = 0) :
    (viona_rx_one c5Env feat meta (c5Ring af) frame true).err = 0 ∧
    (viona_rx_one c5Env feat meta (c5Ring af) frame true).pushes = [(70, 0)] ∧
    (viona_rx_one c5Env feat meta (c5Ring af) frame true).seg0 =
      some (List.replicate 10 0 ++ (frame ++ List.replicate 18 0)) ∧
    (viona_rx_one c5Env feat meta (c5Ring af) frame true).ring.vr_cur_aidx = 1 ∧
    (viona_rx_one c5Env feat meta (c5Ring af) frame true).ring.used_idx = 1 ∧
    (viona_rx_one c5Env feat meta (c5Ring af) frame true).ring.used_ring 0 = ⟨0, 70⟩ ∧
    (viona_rx_one c5Env feat meta (c5Ring af) frame true).intr =
      (af &&& VRING_AVAIL_F_NO_INTERRUPT == 0) := by
  have hone : viona_rx_one c5Env feat meta (c5Ring af) frame true =
      viona_rx_deliver c5Env feat meta (setAF c5R0 af)
        [frame, List.replicate 18 0] 60 := by
    have h56 : ¬ (frame.length = NEED_VLAN_PAD_SIZE) := by rw [h]; decide
    have h60 : frame.length < MIN_BUF_SIZE := by rw [h]; decide
    rw [viona_rx_one, if_neg h56, if_pos h60, if_pos rfl, h,
      show MIN_BUF_SIZE = 60 from rfl,
      show ((60:Nat) - 42) = 18 from by norm_num,
      show ({ c5Ring af with stats := incrStat (c5Ring af).stats .rx_pad_short } : VRing) =
        setAF c5R0 af from rfl]
  have hdel : viona_rx_deliver c5Env feat meta (setAF c5R0 af)
      [frame, List.replicate 18 0] 60 =
      ⟨(viona_recv_plain c5Env feat meta (setAF c5R0 af)
          [frame, List.replicate 18 0] 60).err,
       (viona_recv_plain c5Env feat meta (setAF c5R0 af)
          [frame, List.replicate 18 0] 60).ring,
       (viona_recv_plain c5Env feat meta (setAF c5R0 af)
          [frame, List.replicate 18 0] 60).seg0,
       (viona_recv_plain c5Env feat meta (setAF c5R0 af)
          [frame, List.replicate 18 0] 60).pushes,
       (viona_recv_plain c5Env feat meta (setAF c5R0 af)
          [frame, List.replicate 18 0] 60).copied,
       af &&& VRING_AVAIL_F_NO_INTERRUPT == 0⟩ := by
    rw [viona_rx_deliver, if_neg]
    · rfl
    · simp [hf]
  have hsa := viona_recv_plain_setAF c5Env feat meta c5R0 af
    [frame, List.replicate 18 0] 60
  obtain ⟨h1, h2, h3, h4, h5, h6⟩ := c5_recv frame feat meta h hm1 hm2
  rw [hone, hdel, hsa]
  exact ⟨h1, h2, h3, h4, h5, h6, rfl⟩

theorem C5_plain_rx_small_frame_witness :
    (List.replicate 42 7 : List Nat).length = 42 ∧
    ((viona_rx_one c5Env 0 ⟨0, 0, 0⟩ (c5Ring 1) (List.replicate 42 7) true).err = 0 ∧
     (viona_rx_one c5Env 0 ⟨0, 0, 0⟩ (c5Ring 1) (List.replicate 42 7) true).pushes =
       [(70, 0)] ∧
     (viona_rx_one c5Env 0 ⟨0, 0, 0⟩ (c5Ring 1) (List.replicate 42 7) true).seg0 =
       some (List.replicate 10 0 ++ (List.replicate 42 7 ++ List.replicate 18 0)) ∧
     (viona_rx_one c5Env 0 ⟨0, 0, 0⟩ (c5Ring 1)
       (List.replicate 42 7) true).ring.vr_cur_aidx = 1 ∧
     (viona_rx_one c5Env 0 ⟨0, 0, 0⟩ (c5Ring 1)
       (List.replicate 42 7) true).ring.used_idx = 1 ∧
     (viona_rx_one c5Env 0 ⟨0, 0, 0⟩ (c5Ring 1)
       (List.replicate 42 7) true).ring.used_ring 0 = ⟨0, 70⟩ ∧
     (viona_rx_one c5Env 0 ⟨0, 0, 0⟩ (c5Ring 1) (List.replicate 42 7) true).intr =
       (1 &&& VRING_AVAIL_F_NO_INTERRUPT == 0)) :=
  ⟨by decide,
   C5_plain_rx_small_frame (List.replicate 42 7) 1 0 ⟨0, 0, 0⟩ (by decide) rfl rfl
     (by decide)⟩

/-- C6: On the plain layout, whenever a chain pops successfully but the
frame cannot be laid down intact — the first segment is smaller than
the 10-byte header, or the total payload copied differs from the frame
size — viona_recv_plain returns EINVAL and still pushes exactly one
completion for the chain's cookie, whose length is at least
min(MIN_BUF_SIZE + header size, bytes copied). -/
theorem C6_plain_rx_error_push (env : GuestMem) (feat : Nat) (meta : MblkMeta)
    (ring : VRing) (mp : List (List Nat)) (msz : Nat) (iov : List IoVec)
    (cookie : Nat)
    (hres : (vq_popchain env ring VTNET_MAXSEGS).res = PopRes.ok iov cookie)
    (hbad : iov.headI.iov_len < VNET_HDR_SZ ∨
      (VNET_HDR_SZ ≤ iov.headI.iov_len ∧
       (recvPlainCore mp iov.headI.iov_len ((iov.drop 1).map IoVec.iov_len)).2.2
         ≠ msz)) :
    (viona_recv_plain env feat meta ring mp msz).err = EINVAL ∧
    ∃ plen,
      (viona_recv_plain env feat meta ring mp msz).pushes = [(plen, cookie)] ∧
      min (MIN_BUF_SIZE + VNET_HDR_SZ)
        (viona_recv_plain env feat meta ring mp msz).copied ≤ plen := by
  rcases hbad with hA | ⟨hB1, hB2⟩
  · simp only [viona_recv_plain, hres, if_pos hA]
    exact ⟨trivial, max 0 (MIN_BUF_SIZE + VNET_HDR_SZ), by simp, by omega⟩
  · simp only [viona_recv_plain, hres, if_neg (not_lt.mpr hB1), if_pos hB2]
    exact ⟨trivial,
      max (recvPlainCore mp iov.headI.iov_len
        ((iov.drop 1).map IoVec.iov_len)).2.2 (MIN_BUF_SIZE + VNET_HDR_SZ),
      by simp, by omega⟩

/-- C6 scenario ring: one available chain whose single descriptor is a
5-byte buffer, smaller than the virtio-net header. -/
def c6Ring : VRing where
  vr_size := 2
  vr_mask := 1
  vr_cur_aidx := 0
  avail_idx := 1
  avail_flags := 0
  avail_ring := fun _ => 0
  descr := fun _ => ⟨100, 5, VRING_DESC_F_WRITE, 0⟩
  used_idx := 0
  used_flags := 0
  used_ring := fun _ => ⟨0, 0⟩
  stats := fun _ => 0

theorem C6_plain_rx_error_push_witness :
    ((vq_popchain c5Env c6Ring VTNET_MAXSEGS).res =
      PopRes.ok [⟨100100, 5⟩] 0 ∧
     ([⟨100100, 5⟩] : List IoVec).headI.iov_len < VNET_HDR_SZ) ∧
    (viona_recv_plain c5Env 0 ⟨0, 0, 0⟩ c6Ring [[1, 2, 3]] 60).err = EINVAL ∧
    ∃ plen,
      (viona_recv_plain c5Env 0 ⟨0, 0, 0⟩ c6Ring [[1, 2, 3]] 60).pushes =
        [(plen, 0)] ∧
      min (MIN_BUF_SIZE + VNET_HDR_SZ)
        (viona_recv_plain c5Env 0 ⟨0, 0, 0⟩ c6Ring [[1, 2, 3]] 60).copied ≤ plen :=
  ⟨⟨by decide, by decide⟩,
   C6_plain_rx_error_push c5Env 0 ⟨0, 0, 0⟩ c6Ring [[1, 2, 3]] 60 [⟨100100, 5⟩] 0
     (by decide) (Or.inl (by decide))⟩

/-! TX checksum offload: viona_tx_csum (viona.c lines 2821-2992) over
the copied headers block.  The block is a byte list (the
VIONA_MAX_HDRS_LEN allocation) with its MBLKL — the bytes viona_tx
actually copied — carried separately; 16-bit stores into the block are
recorded by their byte offsets (the stored values sit behind external
macros such as IP_TCP_CSUM_COMP and only their placement is examined
here); mac_hcksum_set and lso_info_set attach metadata and store
nothing. -/

/-- ntohs(eth->ether_type): the EtherType read at bytes 12-13. -/
def txCsumFtype0 (mp : List Nat) : Nat :=
  (mp.getD 12 0) * 256 + mp.getD 13 0

/-- The L2 header length after the VLAN adjustment (lines 2854-2861). -/
def txCsumEthLen (mp : List Nat) : Nat :=
  if txCsumFtype0 mp = ETHERTYPE_VLAN then 18 else 14

/-- The EtherType after looking through a VLAN tag (bytes 16-17). -/
def txCsumFtype (mp : List Nat) : Nat :=
  if txCsumFtype0 mp = ETHERTYPE_VLAN then
    (mp.getD 16 0) * 256 + mp.getD 17 0
  else txCsumFtype0 mp

/-- The L4 protocol: ipha_protocol (byte 9 of the IPv4 header) or
ip6_nxt (byte 6 of the IPv6 header), else IPPROTO_NONE (lines
2863-2871). -/
def txCsumIpproto (mp : List Nat) : Nat :=
  if txCsumFtype mp = ETHERTYPE_IP then mp.getD (txCsumEthLen mp + 9) 0
  else if txCsumFtype mp = ETHERTYPE_IPV6 then mp.getD (txCsumEthLen mp + 6) 0
  else IPPROTO_NONE

/-- The 16-bit stores of the LSO block (lines 2878-2931): the TCP
checksum field at IPH_HDR_LENGTH(ipha) + 16 past the IP header start,
and the zeroed ipha_hdr_checksum at byte 10 of the IP header. -/
def txCsumLsoStores (cap : Nat) (hdr : VNetHdr) (mp : List Nat) : List Nat :=
  if cap &&& HCKSUM_INET_PARTIAL ≠ 0 ∧
      hdr.vrh_gso_type &&& VIRTIO_NET_HDR_GSO_TCPV4 ≠ 0 ∧
      txCsumFtype mp = ETHERTYPE_IP then
    [txCsumEthLen mp + (mp.getD (txCsumEthLen mp) 0 &&& 0xf) * 4 + 16,
     txCsumEthLen mp + 10]
  else []

/-- viona_tx_csum: validate the guest checksum offsets against the
frame length and the copied headers block, then program partial or
full hardware checksumming; returns the MAC-acceptance verdict, the
16-bit store offsets performed in the headers block, and the updated
statistics. -/
def viona_tx_csum (stats : Stats) (cap : Nat) (hdr : VNetHdr)
    (mp : List Nat) (mblkl len : Nat) : Bool × List Nat × Stats :=
  if hdr.vrh_csum_start ≥ len ∨ hdr.vrh_csum_start < 14 ∨
      hdr.vrh_csum_offset + hdr.vrh_csum_start ≥ len ∨
      hdr.vrh_csum_offset + hdr.vrh_csum_start + 2 > mblkl then
    (false, [], incrStat stats .fail_hcksum)
  else if cap &&& HCKSUM_INET_PARTIAL ≠ 0 ∧
      (txCsumIpproto mp = IPPROTO_TCP ∨ txCsumIpproto mp = IPPROTO_UDP) then
    (true, txCsumLsoStores cap hdr mp, stats)
  else if txCsumFtype mp = ETHERTYPE_IP then
    if cap &&& HCKSUM_INET_FULL_V4 ≠ 0 ∧
        (txCsumIpproto mp = IPPROTO_TCP ∨ txCsumIpproto mp = IPPROTO_UDP) then
      (true, txCsumLsoStores cap hdr mp ++
        [hdr.vrh_csum_offset + hdr.vrh_csum_start], stats)
    else
      (false, txCsumLsoStores cap hdr mp, incrStat stats .fail_hcksum)
  else if txCsumFtype mp = ETHERTYPE_IPV6 then
    if cap &&& HCKSUM_INET_FULL_V6 ≠ 0 ∧
        (txCsumIpproto mp = IPPROTO_TCP ∨ txCsumIpproto mp = IPPROTO_UDP) then
      (true, txCsumLsoStores cap hdr mp ++
        [hdr.vrh_csum_offset + hdr.vrh_csum_start], stats)
    else
      (false, txCsumLsoStores cap hdr mp, incrStat stats .fail_hcksum6)
  else
    (false, txCsumLsoStores cap hdr mp, incrStat stats .fail_hcksum_proto)

theorem txCsumEthLen_le (mp : List Nat) : txCsumEthLen mp ≤ 18 := by
  unfold txCsumEthLen; split <;> omega

theorem txCsumLsoStores_bound (cap : Nat) (hdr : VNetHdr) (mp : List Nat) :
    ∀ o ∈ txCsumLsoStores cap hdr mp, o + 2 ≤ 96 := by
  intro o ho
  unfold txCsumLsoStores at ho
  split at ho
  · have hel := txCsumEthLen_le mp
    have hland : mp.getD (txCsumEthLen mp) 0 &&& 0xf ≤ 0xf := Nat.and_le_right
    rcases List.mem_cons.mp ho with h1 | h2
    · omega
    · rcases List.mem_cons.mp h2 with h3 | h4
      · omega
      · cases h4
  · cases ho

/-- C7 (amended): viona_tx_csum accepts the frame for MAC only when
csum_start lies in [eth_len, len), csum_stuff stays below len and
csum_stuff + 2 fits inside the copied headers block; a violated bound
yields the fail_hcksum bump, no store at all, and the reject verdict
that routes viona_tx to drop_fail, where the completion is still
pushed and MAC never sees the frame.  Every 16-bit store the function
performs stays inside the VIONA_MAX_HDRS_LEN header allocation
(though the LSO pseudo-header store may land beyond MBLKL: see the
counterexample). -/
theorem C7_tx_csum_amended (stats : Stats) (cap : Nat) (hdr : VNetHdr)
    (mp : List Nat) (mblkl len : Nat) :
    ((viona_tx_csum stats cap hdr mp mblkl len).1 = true →
      14 ≤ hdr.vrh_csum_start ∧ hdr.vrh_csum_start < len ∧
      hdr.vrh_csum_offset + hdr.vrh_csum_start < len ∧
      hdr.vrh_csum_offset + hdr.vrh_csum_start + 2 ≤ mblkl) ∧
    (¬ (14 ≤ hdr.vrh_csum_start ∧ hdr.vrh_csum_start < len ∧
        hdr.vrh_csum_offset + hdr.vrh_csum_start < len ∧
        hdr.vrh_csum_offset + hdr.vrh_csum_start + 2 ≤ mblkl) →
      (viona_tx_csum stats cap hdr mp mblkl len).1 = false ∧
      (viona_tx_csum stats cap hdr mp mblkl len).2.1 = [] ∧
      (viona_tx_csum stats cap hdr mp mblkl len).2.2 =
        incrStat stats RingStat.fail_hcksum) ∧
    (mblkl ≤ VIONA_MAX_HDRS_LEN →
      ∀ o ∈ (viona_tx_csum stats cap hdr mp mblkl len).2.1,
        o + 2 ≤ VIONA_MAX_HDRS_LEN) ∧
    (∀ (tenv : TxEnv) (cookie total : Nat) (claimed : Bool) (ring : VRing),
      tenv.csum_needed = true → tenv.csum_ok = false →
      (viona_tx_submit tenv cookie total none 0 claimed ring).1.pushes =
        [(total, cookie)] ∧
      (viona_tx_submit tenv cookie total none 0 claimed ring).1.mac = false) := by
  by_cases hb : (hdr.vrh_csum_start ≥ len ∨ hdr.vrh_csum_start < 14 ∨
      hdr.vrh_csum_offset + hdr.vrh_csum_start ≥ len ∨
      hdr.vrh_csum_offset + hdr.vrh_csum_start + 2 > mblkl)
  · refine ⟨?_, ?_, ?_, ?_⟩
    · intro htrue
      rw [viona_tx_csum, if_pos hb] at htrue
      cases htrue
    · intro hnb
      rw [viona_tx_csum, if_pos hb]
      exact ⟨rfl, rfl, rfl⟩
    · intro hm o ho
      rw [viona_tx_csum, if_pos hb] at ho
      cases ho
    · intro tenv cookie total claimed ring h1 h2
      constructor <;> simp [viona_tx_submit, txDropNone, h1, h2]
  · refine ⟨?_, ?_, ?_, ?_⟩
    · intro htrue
      push_neg at hb
      omega
    · intro hnb
      exfalso
      push_neg at hb
      omega
    · intro hm o ho
      have h138 : VIONA_MAX_HDRS_LEN = 138 := rfl
      rw [h138] at hm ⊢
      rw [viona_tx_csum, if_neg hb] at ho
      have hlso := txCsumLsoStores_bound cap hdr mp o
      split at ho
      · have := hlso ho; omega
      · split at ho
        · split at ho
          · rcases List.mem_append.mp ho with h1 | h2
            · have := hlso h1; omega
            · rcases List.mem_singleton.mp h2 with rfl
              omega
          · have := hlso ho; omega
        · split at ho
          · split at ho
            · rcases List.mem_append.mp ho with h1 | h2
              · have := hlso h1; omega
              · rcases List.mem_singleton.mp h2 with rfl
                omega
            · have := hlso ho; omega
          · have := hlso ho; omega
    · intro tenv cookie total claimed ring h1 h2
      constructor <;> simp [viona_tx_submit, txDropNone, h1, h2]

/-- C7 counterexample headers block: an IPv4/TCP frame whose IP header
length nibble claims 15 words (60 bytes): EtherType 0x0800 at bytes
12-13, version/IHL byte 0x4f at 14, protocol TCP at 23. -/
def c7Mp : List Nat :=
  ((((List.replicate 50 0).set 12 8).set 14 79).set 23 6)

/-- C7 counterexample virtio-net header: NEEDS_CSUM, gso_type TCPV4,
csum_start 14, csum_offset 16. -/
def c7Hdr : VNetHdr :=
  ⟨VIRTIO_NET_HDR_F_NEEDS_CSUM, VIRTIO_NET_HDR_GSO_TCPV4, 0, 1448, 14, 16⟩

/-- C7 counterexample: a frame passing every bound of the checksum
validation (csum_start 14 ∈ [14, 50), csum_stuff 30, 30 + 2 ≤ MBLKL
50) is accepted for MAC, yet the LSO pseudo-header checksum store
lands at offset 90 — beyond the 50 bytes copied into the headers
block — so a 16-bit checksum store outside the copied first block does
occur. -/
theorem C7_tx_csum_counterexample :
    (viona_tx_csum (fun _ => 0) HCKSUM_INET_PARTIAL c7Hdr c7Mp 50 50).1 = true ∧
    (viona_tx_csum (fun _ => 0) HCKSUM_INET_PARTIAL c7Hdr c7Mp 50 50).2.1 =
      [90, 24] ∧
    ¬ (∀ o ∈ (viona_tx_csum (fun _ => 0) HCKSUM_INET_PARTIAL c7Hdr c7Mp 50 50).2.1,
        o + 2 ≤ 50) := by
  decide

/-- A virtio-net header violating the lower checksum bound
(csum_start 5 < eth_len). -/
def c7HdrBad : VNetHdr :=
  ⟨VIRTIO_NET_HDR_F_NEEDS_CSUM, 0, 0, 0, 5, 16⟩

theorem C7_tx_csum_amended_witness :
    (50 ≤ VIONA_MAX_HDRS_LEN ∧
     ∀ o ∈ (viona_tx_csum (fun _ => 0) HCKSUM_INET_PARTIAL c7Hdr c7Mp 50 50).2.1,
       o + 2 ≤ VIONA_MAX_HDRS_LEN) ∧
    (¬ (14 ≤ c7HdrBad.vrh_csum_start ∧ c7HdrBad.vrh_csum_start < 50 ∧
        c7HdrBad.vrh_csum_offset + c7HdrBad.vrh_csum_start < 50 ∧
        c7HdrBad.vrh_csum_offset + c7HdrBad.vrh_csum_start + 2 ≤ 50) ∧
     (viona_tx_csum (fun _ => 0) HCKSUM_INET_PARTIAL c7HdrBad c7Mp 50 50).1 = false ∧
     (viona_tx_csum (fun _ => 0) HCKSUM_INET_PARTIAL c7HdrBad c7Mp 50 50).2.1 = [] ∧
     (viona_tx_csum (fun _ => 0) HCKSUM_INET_PARTIAL c7HdrBad c7Mp 50 50).2.2 =
       incrStat (fun _ => 0) RingStat.fail_hcksum) :=
  ⟨⟨by decide,
    (C7_tx_csum_amended (fun _ => 0) HCKSUM_INET_PARTIAL c7Hdr c7Mp 50 50).2.2.1
      (by decide)⟩,
   by decide,
   (C7_tx_csum_amended (fun _ => 0) HCKSUM_INET_PARTIAL c7HdrBad c7Mp 50 50).2.1
     (by decide)⟩

/-! Notification plane: viona_ioc_ring_kick (viona.c lines 1569-1603)
and viona_notify_wcb (lines 1627-1637). -/

/-! Ring-state codes and state flags (viona.c lines 385-393). -/

def VRS_RESET : Nat := 0x0
def VRS_SETUP : Nat := 0x1
def VRS_INIT : Nat := 0x2
def VRS_RUN : Nat := 0x3

def VRSF_REQ_START : Nat := 0x1

/-- Modelled from the spec: the link carries two rings indexed by
direction (sys/viona_io.h is outside the staged sources). -/
def VIONA_VQ_MAX : Nat := 2

/-- The slice of viona_vring_t the kick path touches; cv_broadcasts
counts cv_broadcast wake-ups of the ring worker. -/
structure KickRing where
  vr_state : Nat
  vr_state_flags : Nat
  cv_broadcasts : Nat
deriving DecidableEq, Repr

/-- The slice of viona_link_t the notify path touches. -/
structure Link where
  l_notify_ioport : Nat
  rings : Nat → KickRing

/-- Store back one ring of the link's l_vrings array. -/
def Link.setRing (link : Link) (idx : Nat) (r : KickRing) : Link :=
  { link with rings := fun j => if j = idx then r else link.rings j }

/-- viona_ioc_ring_kick: reject an out-of-range index, then switch on
ring state — SETUP and INIT set VRSF_REQ_START and fall through to the
RUN broadcast; any other state reports EBUSY and changes nothing. -/
def viona_ioc_ring_kick (link : Link) (idx : Nat) : Nat × Link :=
  if idx ≥ VIONA_VQ_MAX then (EINVAL, link)
  else
    if (link.rings idx).vr_state = VRS_SETUP ∨
        (link.rings idx).vr_state = VRS_INIT then
      (0, link.setRing idx
        { link.rings idx with
          vr_state_flags := (link.rings idx).vr_state_flags ||| VRSF_REQ_START,
          cv_broadcasts := (link.rings idx).cv_broadcasts + 1 })
    else if (link.rings idx).vr_state = VRS_RUN then
      (0, link.setRing idx
        { link.rings idx with
          cv_broadcasts := (link.rings idx).cv_broadcasts + 1 })
    else
      (EBUSY, link)

/-- viona_notify_wcb: a guest ioport write reaches the kick path only
when it hits the registered notify ioport with a 2-byte access; the
written value is truncated to 16 bits to select the ring. -/
def viona_notify_wcb (link : Link) (ioport sz val : Nat) : Nat × Link :=
  if ioport ≠ link.l_notify_ioport ∨ sz ≠ 2 then (EINVAL, link)
  else viona_ioc_ring_kick link (val % 65536)

/-- C10: a guest write at the notify hook is rejected with EINVAL and
leaves every ring untouched when its size is not 2 bytes or its port
is not the registered notify ioport; otherwise the low 16 bits of the
value select the ring, an index of VIONA_VQ_MAX or more also yields
EINVAL, and a kick to a ring in the RESET state yields EBUSY without
setting a state flag or waking the worker. -/
theorem C10_notify_kick_errors (link : Link) (ioport sz val : Nat) :
    ((ioport ≠ link.l_notify_ioport ∨ sz ≠ 2) →
      viona_notify_wcb link ioport sz val = (EINVAL, link)) ∧
    (ioport = link.l_notify_ioport → sz = 2 →
      viona_notify_wcb link ioport sz val =
        viona_ioc_ring_kick link (val % 65536)) ∧
    (∀ idx, VIONA_VQ_MAX ≤ idx →
      viona_ioc_ring_kick link idx = (EINVAL, link)) ∧
    (∀ idx, idx < VIONA_VQ_MAX → (link.rings idx).vr_state = VRS_RESET →
      viona_ioc_ring_kick link idx = (EBUSY, link)) := by
  refine ⟨?_, ?_, ?_, ?_⟩
  · intro hbad
    rw [viona_notify_wcb, if_pos hbad]
  · intro hio hsz
    rw [viona_notify_wcb, if_neg]
    push_neg
    exact ⟨hio, hsz⟩
  · intro idx hidx
    rw [viona_ioc_ring_kick, if_pos hidx]
  · intro idx hidx hreset
    rw [viona_ioc_ring_kick, if_neg (by omega), if_neg (by
        rw [hreset]; decide), if_neg (by rw [hreset]; decide)]

/-- C10 witness link: notify ioport 0x488, both rings in RESET. -/
def c10Link : Link := ⟨0x488, fun _ => ⟨VRS_RESET, 0, 0⟩⟩

theorem C10_notify_kick_errors_witness :
    ((0x487 ≠ c10Link.l_notify_ioport ∨ (2:Nat) ≠ 2) ∧
      viona_notify_wcb c10Link 0x487 2 0 = (EINVAL, c10Link)) ∧
    (viona_notify_wcb c10Link 0x488 2 0 =
      viona_ioc_ring_kick c10Link (0 % 65536)) ∧
    (viona_ioc_ring_kick c10Link 5 = (EINVAL, c10Link)) ∧
    (viona_ioc_ring_kick c10Link 0 = (EBUSY, c10Link)) :=
  ⟨⟨Or.inl (by decide),
    (C10_notify_kick_errors c10Link 0x487 2 0).1 (Or.inl (by decide))⟩,
   (C10_notify_kick_errors c10Link 0x488 2 0).2.1 rfl rfl,
   (C10_notify_kick_errors c10Link 0x488 2 0).2.2.1 5 (by decide),
   (C10_notify_kick_errors c10Link 0x488 2 0).2.2.2 0 (by decide) rfl⟩
